import Mathlib

/-!
Shallow embedding of the mseed3 crate (miniSEED3 record codec, FDSN source
identifiers, Steim-1 compression) and proofs about the claims of its
specification.

Conventions of the embedding:
* Rust byte slices and `Vec<u8>` are `List Nat` whose elements are kept below
  256 by construction of the writers; readers mask with `% 256`.
* Rust `String` is represented by its UTF-8 byte content (a `List Nat`); the
  type invariant "a String is valid UTF-8" becomes an explicit `utf8Valid`
  hypothesis where it matters.
* Machine integers are `Nat` (unsigned) or `Int` (signed) with explicit
  `% 2^w` wrapping where the Rust code can wrap; `f64`/`f32` fields are kept
  as their little-endian bit patterns (a `Nat`), which is faithful because
  the source only moves them through `to_le_bytes`/`from_le_bytes`.
* Fallible Rust functions return `Except RErr _`; `RErr.err` carries the
  `MSeedError` value and `RErr.panicked` models a Rust panic (failed
  `assert!`, out-of-bounds index, `unwrap` of an error).  Panic message
  strings are abbreviated markers, not the exact Rust panic text.
-/

/-! ## Byte-level utilities -/

/-- Little-endian value of a byte list, as in `u32::from_le_bytes` and
friends (least significant byte first). -/
def readLE : List Nat → Nat
  | [] => 0
  | b :: rest => b % 256 + 256 * readLE rest

/-- Big-endian value of a byte list, as in `u32::from_be_bytes`. -/
def readBE (l : List Nat) : Nat :=
  l.foldl (fun acc b => acc * 256 + b % 256) 0

/-- Little-endian 2-byte image of a `u16` value (`write_u16::<LittleEndian>`). -/
def le2 (x : Nat) : List Nat := [x % 256, x / 256 % 256]

/-- Little-endian 4-byte image of a `u32` value (`write_u32::<LittleEndian>`). -/
def le4 (x : Nat) : List Nat :=
  [x % 256, x / 256 % 256, x / 2 ^ 16 % 256, x / 2 ^ 24 % 256]

/-- Little-endian 8-byte image of a 64-bit value (`write_f64::<LittleEndian>`
on the bit pattern). -/
def le8 (x : Nat) : List Nat := le4 (x % 2 ^ 32) ++ le4 (x / 2 ^ 32)

/-- Big-endian 4-byte image of a `u32` value (`u32::to_be_bytes`). -/
def be4 (x : Nat) : List Nat :=
  [x / 2 ^ 24 % 256, x / 2 ^ 16 % 256, x / 256 % 256, x % 256]

/-- Unsigned 32-bit reinterpretation of an `i32` (`u32::from_be_bytes(v.to_be_bytes())`). -/
def toU32 (x : Int) : Nat := (x % 2 ^ 32).toNat

/-- Unsigned 16-bit reinterpretation of an `i16`. -/
def toU16 (x : Int) : Nat := (x % 2 ^ 16).toNat

/-- Unsigned 8-bit reinterpretation of an `i8`. -/
def toU8 (x : Int) : Nat := (x % 2 ^ 8).toNat

/-- Signed value of an unsigned 32-bit quantity (two's complement). -/
def i32OfU32 (n : Nat) : Int :=
  if n % 2 ^ 32 < 2 ^ 31 then (n % 2 ^ 32 : Nat) else (n % 2 ^ 32 : Nat) - 2 ^ 32

/-- Signed value of an unsigned 16-bit quantity (two's complement). -/
def i16OfU16 (n : Nat) : Int :=
  if n % 2 ^ 16 < 2 ^ 15 then (n % 2 ^ 16 : Nat) else (n % 2 ^ 16 : Nat) - 2 ^ 16

/-- Signed value of a byte, as in `(b as i8) as i32`. -/
def i8OfByte (b : Nat) : Int :=
  if b % 256 < 128 then (b % 256 : Nat) else (b % 256 : Nat) - 256

/-- Wrap-around 32-bit signed arithmetic (release-mode `i32` semantics). -/
def wrap32 (x : Int) : Int := (x + 2 ^ 31) % 2 ^ 32 - 2 ^ 31

/-! ## CRC32C (Castagnoli), as the `crc` crate's `CRC_32_ISCSI`

Reflected algorithm: polynomial 0x1EDC6F41 processed LSB-first as
0x82F63B78, init 0xFFFFFFFF, xorout 0xFFFFFFFF. -/

def CRC32C_POLY : Nat := 0x82F63B78

/-- One bit step of the reflected CRC32C computation. -/
def crcBitStep (c : Nat) : Nat :=
  if c % 2 = 1 then (c / 2) ^^^ CRC32C_POLY else c / 2

/-- One byte step of the reflected CRC32C computation. -/
def crcByteStep (c : Nat) (b : Nat) : Nat :=
  let c := c ^^^ (b % 256)
  crcBitStep (crcBitStep (crcBitStep (crcBitStep
    (crcBitStep (crcBitStep (crcBitStep (crcBitStep c)))))))

/-- Digest update: feed bytes into the running CRC register
(`Digest::update`). -/
def crcUpdate (c : Nat) (bs : List Nat) : Nat := bs.foldl crcByteStep c

/-- Full checksum (`CASTAGNOLI.checksum`): init 0xFFFFFFFF, process all
bytes, xorout 0xFFFFFFFF. -/
def crc32c (bs : List Nat) : Nat := crcUpdate 0xFFFFFFFF bs ^^^ 0xFFFFFFFF

/-! ## UTF-8 validity (the check done by `String::from_utf8`) -/

/-- Continuation byte test: `0x80..=0xBF`. -/
def utf8Cont (b : Nat) : Bool := 128 ≤ b && b ≤ 191

/-- Standard UTF-8 validation of a byte sequence, including the overlong and
surrogate restrictions, as performed by `String::from_utf8`. -/
def utf8Valid : List Nat → Bool
  | [] => true
  | b :: rest =>
    if b ≤ 0x7F then utf8Valid rest
    else if 0xC2 ≤ b && b ≤ 0xDF then
      match rest with
      | c1 :: r => utf8Cont c1 && utf8Valid r
      | [] => false
    else if b = 0xE0 then
      match rest with
      | c1 :: c2 :: r => (0xA0 ≤ c1 && c1 ≤ 0xBF) && utf8Cont c2 && utf8Valid r
      | _ => false
    else if (0xE1 ≤ b && b ≤ 0xEC) || b = 0xEE || b = 0xEF then
      match rest with
      | c1 :: c2 :: r => utf8Cont c1 && utf8Cont c2 && utf8Valid r
      | _ => false
    else if b = 0xED then
      match rest with
      | c1 :: c2 :: r => (0x80 ≤ c1 && c1 ≤ 0x9F) && utf8Cont c2 && utf8Valid r
      | _ => false
    else if b = 0xF0 then
      match rest with
      | c1 :: c2 :: c3 :: r =>
        (0x90 ≤ c1 && c1 ≤ 0xBF) && utf8Cont c2 && utf8Cont c3 && utf8Valid r
      | _ => false
    else if 0xF1 ≤ b && b ≤ 0xF3 then
      match rest with
      | c1 :: c2 :: c3 :: r => utf8Cont c1 && utf8Cont c2 && utf8Cont c3 && utf8Valid r
      | _ => false
    else if b = 0xF4 then
      match rest with
      | c1 :: c2 :: c3 :: r =>
        (0x80 ≤ c1 && c1 ≤ 0x8F) && utf8Cont c2 && utf8Cont c3 && utf8Valid r
      | _ => false
    else false

/-! ## Errors (`mseed_error.rs`), plus an explicit panic marker -/

/-- The `MSeedError` variants used by the embedded functions.  String/`Vec`
payloads are carried as in the source; IO and JSON errors do not arise in the
pure embedding. -/
inductive MErr where
  | insufficientBytes (actual required : Nat)
  | crcInvalid (calcCrc headerCrc : Nat)
  | fromUtf8
  | badRecordIndicator (b0 b1 : Nat)
  | unknownFormatVersion (b : Nat)
  | identifierParse (id : List Nat) (field : String)
  | dataLength (expected nsamples encoding actual : Nat)
  | compression (msg : String)
deriving DecidableEq, Repr

/-- Result outcome of a Rust call: an `MSeedError`, or a panic (failed
assertion, out-of-bounds index, `unwrap` of a `None`/`Err`). -/
inductive RErr where
  | err (e : MErr)
  | panicked (msg : String)
deriving DecidableEq, Repr

/-! ## DataEncoding (`data_encoding.rs`) -/

/-- Known data compression codes.  `opaqueData` stands for the source's
`OPAQUE` variant. -/
inductive DataEncoding where
  | text
  | int16
  | int32
  | float32
  | float64
  | steim1
  | steim2
  | steim3
  | opaqueData
  | unknown (val : Nat)
deriving DecidableEq, Repr

/-- `DataEncoding::from_int`. -/
def DataEncoding.from_int (val : Nat) : DataEncoding :=
  match val with
  | 0 => .text
  | 1 => .int16
  | 3 => .int32
  | 4 => .float32
  | 5 => .float64
  | 10 => .steim1
  | 11 => .steim2
  | 19 => .steim3
  | 100 => .opaqueData
  | _ => .unknown val

/-- `DataEncoding::value`. -/
def DataEncoding.value : DataEncoding → Nat
  | .text => 0
  | .int16 => 1
  | .int32 => 3
  | .float32 => 4
  | .float64 => 5
  | .steim1 => 10
  | .steim2 => 11
  | .steim3 => 19
  | .opaqueData => 100
  | .unknown val => val

/-! ## Fixed header (`header.rs`) -/

/-- Size in bytes of the fixed header. -/
def FIXED_HEADER_SIZE : Nat := 40

/-- Offset to the 4-byte CRC within the header. -/
def CRC_OFFSET : Nat := 28

/-- The fixed section of the header (`MSeed3Header` in `header.rs`).
`sample_rate_period` holds the 64 IEEE-754 bits of the `f64` field as the
value of its little-endian byte image. -/
structure MSeed3Header where
  record_indicator : List Nat
  format_version : Nat
  flags : Nat
  nanosecond : Nat
  year : Nat
  day_of_year : Nat
  hour : Nat
  minute : Nat
  second : Nat
  encoding : DataEncoding
  sample_rate_period : Nat
  num_samples : Nat
  crc : Nat
  publication_version : Nat
  identifier_length : Nat
  extra_headers_length : Nat
  data_length : Nat
deriving DecidableEq, Repr

/-- First two bytes of a miniseed3 header must be `M`,`S`. -/
def MSeed3Header.REC_IND : List Nat := [77, 83]

/-- `MSeed3Header::recalculated_lengths`. -/
def MSeed3Header.recalculated_lengths (h : MSeed3Header)
    (identifier_length extra_headers_length data_length num_samples : Nat) :
    MSeed3Header :=
  { h with identifier_length := identifier_length,
           extra_headers_length := extra_headers_length,
           data_length := data_length,
           num_samples := num_samples }

/-- `MSeed3Header::write_to`: the 40-byte serialized image of the header.
Multi-byte integers are little-endian; single bytes are masked to model the
`u8` field types. -/
def MSeed3Header.write_to (h : MSeed3Header) : List Nat :=
  MSeed3Header.REC_IND
    ++ [h.format_version % 256, h.flags % 256]
    ++ le4 h.nanosecond
    ++ le2 h.year
    ++ le2 h.day_of_year
    ++ [h.hour % 256, h.minute % 256, h.second % 256, h.encoding.value % 256]
    ++ le8 h.sample_rate_period
    ++ le4 h.num_samples
    ++ le4 h.crc
    ++ [h.publication_version % 256, h.identifier_length % 256]
    ++ le2 h.extra_headers_length
    ++ le4 h.data_length

/-- `MSeed3Header::get_record_size`. -/
def MSeed3Header.get_record_size (h : MSeed3Header) : Nat :=
  (FIXED_HEADER_SIZE + h.identifier_length + h.extra_headers_length
    + h.data_length) % 2 ^ 32

/-- `MSeed3Header::set_start_from_utc`.  The chrono accessors of the source
instant are passed in directly: `year`/`ordinal` from `start.date()` and
`hour`/`minute`/`sec`/`ns` from `start.time()` (chrono represents a leap
second by `nanosecond() ≥ 1_000_000_000`).  The `as u8`/`as u16` casts of the
source become `% 256`/`% 2^16`. -/
def MSeed3Header.set_start_from_utc (h : MSeed3Header)
    (year ordinal hour minute sec ns : Nat) : MSeed3Header :=
  { h with nanosecond := ns % 1000000000,
           year := year % 2 ^ 16,
           day_of_year := ordinal % 2 ^ 16,
           hour := hour % 256,
           minute := minute % 256,
           second := (sec + ns / 1000000000) % 256 }

/-- The paired sequential reader `read_le_u32` of `header.rs`: value of the
first four bytes, and the rest of the input. -/
def read_le_u32 (input : List Nat) : Nat × List Nat :=
  (readLE (input.take 4), input.drop 4)

/-- The paired sequential reader `read_le_u16` of `header.rs`. -/
def read_le_u16 (input : List Nat) : Nat × List Nat :=
  (readLE (input.take 2), input.drop 2)

/-- The paired sequential reader `read_le_f64` of `header.rs`; the bit
pattern is kept as a `Nat`. -/
def read_le_f64 (input : List Nat) : Nat × List Nat :=
  (readLE (input.take 8), input.drop 8)

/-- `TryFrom<&[u8; FIXED_HEADER_SIZE]> for MSeed3Header`.  The argument is
the 40-byte buffer (`List Nat` of length 40); fields are consumed
sequentially with the `read_le_*` helpers after `split_at(4)`, and the
byte-indexed fields use positional lookup exactly as the source does. -/
def MSeed3Header.tryFromArray (buffer : List Nat) : Except RErr MSeed3Header :=
  if buffer.getD 0 0 ≠ 77 ∨ buffer.getD 1 0 ≠ 83 then
    .error (.err (.badRecordIndicator (buffer.getD 0 0) (buffer.getD 1 0)))
  else if buffer.getD 2 0 ≠ 3 then
    .error (.err (.unknownFormatVersion (buffer.getD 2 0)))
  else
    let record_indicator := MSeed3Header.REC_IND
    let format_version := buffer.getD 2 0
    let flags := buffer.getD 3 0
    let header_bytes := buffer.drop 4
    let (nanosecond, header_bytes) := read_le_u32 header_bytes
    let (year, header_bytes) := read_le_u16 header_bytes
    let (day_of_year, header_bytes) := read_le_u16 header_bytes
    let hour := buffer.getD 12 0
    let minute := buffer.getD 13 0
    let second := buffer.getD 14 0
    let encoding := DataEncoding.from_int (buffer.getD 15 0)
    let (_, header_bytes) := read_le_u32 header_bytes
    let (sample_rate_period, header_bytes) := read_le_f64 header_bytes
    let (num_samples, header_bytes) := read_le_u32 header_bytes
    let (crc, header_bytes) := read_le_u32 header_bytes
    let publication_version := buffer.getD 32 0
    let identifier_length := buffer.getD 33 0
    let (_, header_bytes) := read_le_u16 header_bytes
    let (extra_headers_length, header_bytes) := read_le_u16 header_bytes
    let (data_length, _) := read_le_u32 header_bytes
    .ok { record_indicator, format_version, flags, nanosecond, year,
          day_of_year, hour, minute, second, encoding, sample_rate_period,
          num_samples, crc, publication_version, identifier_length,
          extra_headers_length, data_length }

/-- `TryFrom<&[u8]> for MSeed3Header`.  Fewer than 40 bytes is
`InsufficientBytes`; exactly 40 delegates to the array parser.  For longer
slices the source's `buffer.try_into().unwrap()` panics, because
`TryFrom<&[u8]> for [u8; 40]` requires the slice length to be exactly 40. -/
def MSeed3Header.tryFromSlice (buffer : List Nat) : Except RErr MSeed3Header :=
  if buffer.length < FIXED_HEADER_SIZE then
    .error (.err (.insufficientBytes buffer.length FIXED_HEADER_SIZE))
  else if buffer.length = FIXED_HEADER_SIZE then
    MSeed3Header.tryFromArray buffer
  else
    .error (.panicked "try_into to 40-byte array failed: unwrap")

/-! ## FDSN source identifier (`fdsn_source_identifier.rs`)

The source parses with the anchored regex

  `^FDSN:(net)_(sta)_(loc)_(band)_(source)_(subsource)$`

where `net` is `[A-Z0-9]{1,8}`, `sta` is `[-A-Z0-9]{1,8}`, `loc` is
`[-A-Z0-9]{0,8}`, `band` is `[A-Z0-9]*`, `source` is `[A-Z0-9]+` and
`subsource` is `[A-Z0-9]*`.  None of the six character classes contains the
separator `_` (0x5F), and all class characters are ASCII, so the regex
matches a string exactly when it starts with `FDSN:` and the remainder
splits at `_` into exactly six fields satisfying the classes and length
bounds; the capture groups are then forced to be those six fields.  The
matcher below is that equivalent compiled form, operating on the UTF-8
bytes. -/

/-- The bytes of the constant `PREFIX = "FDSN:"`. -/
def fdsnPrefixBytes : List Nat := [70, 68, 83, 78, 58]

/-- Character class `[A-Z0-9]`. -/
def isUpperDigit (b : Nat) : Bool := (65 ≤ b && b ≤ 90) || (48 ≤ b && b ≤ 57)

/-- Character class `[-A-Z0-9]`. -/
def isUpperDigitDash (b : Nat) : Bool := isUpperDigit b || b = 45

/-- Split a byte list at every underscore (0x5F); the separators are
consumed.  Always returns at least one (possibly empty) field. -/
def splitUnderscore : List Nat → List (List Nat)
  | [] => [[]]
  | b :: rest =>
    if b = 95 then [] :: splitUnderscore rest
    else
      match splitUnderscore rest with
      | h :: t => (b :: h) :: t
      | [] => [[b]]

/-- Join fields with underscore separators; left inverse of
`splitUnderscore`. -/
def joinUnderscore : List (List Nat) → List Nat
  | [] => []
  | [p] => p
  | p :: q :: rest => p ++ 95 :: joinUnderscore (q :: rest)

/-- An FDSN source identifier parsed into its component parts
(`FdsnSourceIdentifier`); each component is the byte content of the Rust
`String` field. -/
structure FdsnSourceIdentifier where
  network : List Nat
  station : List Nat
  location : List Nat
  band : List Nat
  source : List Nat
  subsource : List Nat
deriving DecidableEq, Repr

/-- `FdsnSourceIdentifier::parse`, the compiled form of the anchored regex
(see the section comment). -/
def FdsnSourceIdentifier.parse (id : List Nat) :
    Except RErr FdsnSourceIdentifier :=
  if fdsnPrefixBytes.isPrefixOf id then
    match splitUnderscore (id.drop 5) with
    | [net, sta, loc, band, src, sub] =>
      if (1 ≤ net.length && net.length ≤ 8) && net.all isUpperDigit
          && (1 ≤ sta.length && sta.length ≤ 8) && sta.all isUpperDigitDash
          && (loc.length ≤ 8) && loc.all isUpperDigitDash
          && band.all isUpperDigit
          && (1 ≤ src.length && src.all isUpperDigit)
          && sub.all isUpperDigit then
        .ok { network := net, station := sta, location := loc,
              band := band, source := src, subsource := sub }
      else .error (.err (.identifierParse id "all"))
    | _ => .error (.err (.identifierParse id "all"))
  else .error (.err (.identifierParse id "all"))

/-- The `Display` image of an `FdsnSourceIdentifier`:
`FDSN:net_sta_loc_band_source_subsource`. -/
def FdsnSourceIdentifier.toBytes (f : FdsnSourceIdentifier) : List Nat :=
  fdsnPrefixBytes ++ f.network ++ 95 :: f.station ++ 95 :: f.location
    ++ 95 :: f.band ++ 95 :: f.source ++ 95 :: f.subsource

/-- `FdsnSourceIdentifier::calc_len` (cast to `u8` as in the source). -/
def FdsnSourceIdentifier.calc_len (f : FdsnSourceIdentifier) : Nat :=
  (10 + f.network.length + f.station.length + f.location.length
    + f.band.length + f.source.length + f.subsource.length) % 256

/-- `SourceIdentifier`: either a raw string (byte content) or a parsed FDSN
identifier. -/
inductive SourceIdentifier where
  | raw (s : List Nat)
  | fdsn (f : FdsnSourceIdentifier)
deriving DecidableEq, Repr

/-- `SourceIdentifier::as_bytes` (for `Fdsn` this is the `Display` image). -/
def SourceIdentifier.as_bytes : SourceIdentifier → List Nat
  | .raw s => s
  | .fdsn f => f.toBytes

/-- `SourceIdentifier::calc_len`. -/
def SourceIdentifier.calc_len : SourceIdentifier → Nat
  | .raw s => s.length % 256
  | .fdsn f => f.calc_len

/-- `From<&str> for SourceIdentifier`: try the FDSN parse, fall back to
`Raw`.  The argument is the byte content of the (already valid UTF-8)
string. -/
def SourceIdentifier.ofStr (s : List Nat) : SourceIdentifier :=
  match FdsnSourceIdentifier.parse s with
  | .ok f => .fdsn f
  | .error _ => .raw s

/-- `TryFrom<Vec<u8>> for SourceIdentifier`: `String::from_utf8` then
`From<&str>`. -/
def SourceIdentifier.tryFromVec (v : List Nat) : Except RErr SourceIdentifier :=
  if utf8Valid v then .ok (SourceIdentifier.ofStr v)
  else .error (.err .fromUtf8)

/-! ## Encoded timeseries payload (`encoded_timeseries.rs`) -/

/-- `EncodedTimeseries`.  Integer samples are `Int` (i16/i32 values);
float samples are kept as their IEEE bit patterns (`Nat`), which is faithful
because the source only reinterprets their bytes. -/
inductive EncodedTimeseries where
  | raw (v : List Nat)
  | int16 (v : List Int)
  | int32 (v : List Int)
  | float32 (v : List Nat)
  | float64 (v : List Nat)
  | steim1 (v : List Nat)
  | steim2 (v : List Nat)
  | steim3 (v : List Nat)
  | opaqueBytes (v : List Nat)
deriving DecidableEq, Repr

/-- `EncodedTimeseries::write_to`: the byte image of the payload.  Typed
variants are written element-wise little-endian; byte variants are written
unchanged. -/
def EncodedTimeseries.write_to : EncodedTimeseries → List Nat
  | .raw v => v
  | .int16 v => (v.map fun el => le2 (toU16 el)).flatten
  | .int32 v => (v.map fun el => le4 (toU32 el)).flatten
  | .float32 v => (v.map fun el => le4 (el % 2 ^ 32)).flatten
  | .float64 v => (v.map fun el => le8 (el % 2 ^ 64)).flatten
  | .steim1 v => v
  | .steim2 v => v
  | .steim3 v => v
  | .opaqueBytes v => v

/-- `EncodedTimeseries::byte_len` (`u32` arithmetic, as in the source's
`2 * v.len() as u32` etc.). -/
def EncodedTimeseries.byte_len : EncodedTimeseries → Nat
  | .raw v => v.length % 2 ^ 32
  | .int16 v => 2 * (v.length % 2 ^ 32) % 2 ^ 32
  | .int32 v => 4 * (v.length % 2 ^ 32) % 2 ^ 32
  | .float32 v => 4 * (v.length % 2 ^ 32) % 2 ^ 32
  | .float64 v => 8 * (v.length % 2 ^ 32) % 2 ^ 32
  | .steim1 v => v.length % 2 ^ 32
  | .steim2 v => v.length % 2 ^ 32
  | .steim3 v => v.length % 2 ^ 32
  | .opaqueBytes v => v.length % 2 ^ 32

/-- `EncodedTimeseries::reconcile_num_samples`. -/
def EncodedTimeseries.reconcile_num_samples :
    EncodedTimeseries → Nat → Nat
  | .int16 v, _ => v.length % 2 ^ 32
  | .int32 v, _ => v.length % 2 ^ 32
  | .float32 v, _ => v.length % 2 ^ 32
  | .float64 v, _ => v.length % 2 ^ 32
  | .raw _, n => n
  | .steim1 _, n => n
  | .steim2 _, n => n
  | .steim3 _, n => n
  | .opaqueBytes _, n => n

/-! ## Records (`record.rs`) -/

/-- `UnparsedMSeed3Record`: fixed header, identifier, extra headers kept as
the byte content of the JSON string, and the encoded payload. -/
structure UnparsedMSeed3Record where
  header : MSeed3Header
  identifier : SourceIdentifier
  extra_headers : List Nat
  encoded_data : EncodedTimeseries
deriving DecidableEq, Repr

/-- `MSeed3Record`: like `UnparsedMSeed3Record` but with parsed extra
headers.  The serde `Map<String, Value>` is abstracted to the byte content
of its canonical serialization `Value::Object(map).to_string()` — the only
view of it the write path uses.  An empty map serializes to exactly the two
bytes `{}`, and a non-empty map to strictly more than two bytes. -/
structure MSeed3Record where
  header : MSeed3Header
  identifier : SourceIdentifier
  extra_headers_ser : List Nat
  encoded_data : EncodedTimeseries
deriving DecidableEq, Repr

/-- `UnparsedMSeed3Record::write_to_wocrc`: serialize with the length fields
recalculated and the CRC field zeroed. -/
def UnparsedMSeed3Record.write_to_wocrc (r : UnparsedMSeed3Record) : List Nat :=
  let id_bytes := r.identifier.as_bytes
  let identifier_length := id_bytes.length % 256
  let data_length := r.encoded_data.byte_len
  let num_samples := r.encoded_data.reconcile_num_samples r.header.num_samples
  let eh_bytes := r.extra_headers
  let extra_headers_length :=
    if eh_bytes.length > 2 then eh_bytes.length % 2 ^ 16 else 0
  let mod_header :=
    ({ r.header with crc := 0 }).recalculated_lengths identifier_length
      extra_headers_length data_length num_samples
  mod_header.write_to ++ id_bytes
    ++ (if eh_bytes.length > 2 then eh_bytes else [])
    ++ r.encoded_data.write_to

/-- `UnparsedMSeed3Record::write_to`: returns the `(bytes_written, crc)`
pair and the bytes put on the wire (the buffer with the CRC patched in at
offset 28). -/
def UnparsedMSeed3Record.write_to (r : UnparsedMSeed3Record) :
    (Nat × Nat) × List Nat :=
  let out := r.write_to_wocrc
  let crc := crc32c out
  ((out.length % 2 ^ 32, crc),
    out.take CRC_OFFSET ++ le4 crc ++ out.drop (CRC_OFFSET + 4))

/-- `MSeed3Record::write_to_wocrc`: identical to the unparsed variant except
that the extra headers come from serializing the map, and — unlike
`UnparsedMSeed3Record::write_to_wocrc` — the stored `crc` field is NOT
zeroed before serializing (`mod_header` keeps `self.header.crc`). -/
def MSeed3Record.write_to_wocrc (r : MSeed3Record) : List Nat :=
  let id_bytes := r.identifier.as_bytes
  let identifier_length := id_bytes.length % 256
  let data_length := r.encoded_data.byte_len
  let num_samples := r.encoded_data.reconcile_num_samples r.header.num_samples
  let eh_bytes := r.extra_headers_ser
  let extra_headers_length :=
    if eh_bytes.length > 2 then eh_bytes.length % 2 ^ 16 else 0
  let mod_header :=
    r.header.recalculated_lengths identifier_length
      extra_headers_length data_length num_samples
  mod_header.write_to ++ id_bytes
    ++ (if eh_bytes.length > 2 then eh_bytes else [])
    ++ r.encoded_data.write_to

/-- `MSeed3Record::write_to`.  The source clones the header and zeroes the
clone's `crc`, but never uses that clone: the CRC is computed over the
serialization containing the stored `crc` value. -/
def MSeed3Record.write_to (r : MSeed3Record) : (Nat × Nat) × List Nat :=
  let out := r.write_to_wocrc
  let crc := crc32c out
  ((out.length % 2 ^ 32, crc),
    out.take CRC_OFFSET ++ le4 crc ++ out.drop (CRC_OFFSET + 4))

/-- The `expected_data_length` match of `UnparsedMSeed3Record::from_reader`
(lines 75–81 of `record.rs`), with `u32` multiplication. -/
def expected_data_length (encoding : DataEncoding)
    (num_samples data_length : Nat) : Nat :=
  match encoding with
  | .int16 => 2 * num_samples % 2 ^ 32
  | .int32 => 4 * num_samples % 2 ^ 32
  | .float32 => 4 * num_samples % 2 ^ 32
  | .float64 => 8 * num_samples % 2 ^ 32
  | _ => data_length

/-- The 40-byte header buffer read by `from_reader`: the stream's first 40
bytes, zero-padded if the stream is shorter (the buffer is
zero-initialized and the short read is ignored). -/
def readHeaderBuffer (s : List Nat) : List Nat :=
  s.take 40 ++ List.replicate (40 - s.length) 0

/-- `UnparsedMSeed3Record::from_reader` on a byte stream.  Sections are
consumed in order (header, identifier, extra headers, payload), the CRC
digest is fed the header with its CRC field zeroed followed by the other
sections verbatim, and `num_samples` is reconciled at the end. -/
def UnparsedMSeed3Record.from_reader (s : List Nat) :
    Except RErr UnparsedMSeed3Record :=
  let buffer := readHeaderBuffer s
  match MSeed3Header.tryFromArray buffer with
  | .error e => .error e
  | .ok header =>
    let buffer0 :=
      buffer.take CRC_OFFSET ++ [0, 0, 0, 0] ++ buffer.drop (CRC_OFFSET + 4)
    let digest0 := crcUpdate 0xFFFFFFFF buffer0
    let s1 := s.drop 40
    let idBytes := s1.take header.identifier_length
    let digest1 := crcUpdate digest0 idBytes
    match SourceIdentifier.tryFromVec idBytes with
    | .error e => .error e
    | .ok identifier =>
      let s2 := s1.drop header.identifier_length
      let ehBytes := s2.take header.extra_headers_length
      let digest2 := crcUpdate digest1 ehBytes
      let finish : List Nat → Except RErr UnparsedMSeed3Record :=
        fun extra_headers =>
          let s3 := s2.drop header.extra_headers_length
          let expected := expected_data_length header.encoding
            header.num_samples header.data_length
          if header.data_length ≠ expected then
            .error (RErr.err (.dataLength expected header.num_samples
              header.encoding.value header.data_length))
          else
            let encoded_data_bytes := s3.take header.data_length
            let digest3 := crcUpdate digest2 encoded_data_bytes
            let crc_calc := digest3 ^^^ 0xFFFFFFFF
            if crc_calc ≠ header.crc then
              .error (RErr.err (.crcInvalid crc_calc header.crc))
            else
              let encoded_data := EncodedTimeseries.raw encoded_data_bytes
              .ok { header := { header with
                      num_samples :=
                        encoded_data.reconcile_num_samples header.num_samples },
                    identifier, extra_headers, encoded_data }
      if header.extra_headers_length > 2 then
        if utf8Valid ehBytes then finish ehBytes
        else .error (RErr.err .fromUtf8)
      else finish [123, 125]

/-! ## Steim frames (`steim_frame_block.rs`) -/

/-- A single Steim compression frame: the nibble word and fifteen 32-bit
data words (`words[0]` is w(1) of the frame layout). -/
structure SteimFrame where
  nibbles : Nat
  words : List Nat
deriving DecidableEq, Repr

/-- `SteimFrame::new`. -/
def SteimFrame.new : SteimFrame := ⟨0, List.replicate 15 0⟩

/-- `SteimFrame::set_word`: store `word` at `idx` and add the two-bit
`nibble` tag at bit positions `31 - 2*idx` down to `30 - 2*idx` of the
nibble word.  (In the source, `idx ≥ 15` would panic on the array store;
every call site uses `idx ≤ 14`.) -/
def SteimFrame.set_word (f : SteimFrame) (word nibble : Nat) (idx : Nat) :
    SteimFrame :=
  { f with words := f.words.set idx word,
           nibbles := f.nibbles + (nibble <<< (30 - 2 * idx)) }

/-- `SteimFrameBlock`. -/
structure SteimFrameBlock where
  num_samples : Nat
  steim_version : Nat
  steim_frame : List SteimFrame
deriving DecidableEq, Repr

/-- `SteimFrameBlock::new`. -/
def SteimFrameBlock.new (steim_version : Nat) : SteimFrameBlock :=
  { steim_version, num_samples := 0, steim_frame := [] }

/-- `SteimFrameBlock::get_encoded_data`: each frame contributes its nibble
word followed by its fifteen data words, all big-endian.  (The `Result`
return of the source can only be `Ok` — writing to a `Vec` cannot fail.) -/
def SteimFrameBlock.get_encoded_data (fb : SteimFrameBlock) : List Nat :=
  (fb.steim_frame.map fun f => be4 f.nibbles ++ (f.words.map be4).flatten).flatten

/-- `SteimFrameBlock::reverse_integration_constant`: write `v` (tag 0) into
word index 1 of frame 0.  (The source asserts the frame list is
non-empty; the encoder always pushes exactly one frame first.) -/
def SteimFrameBlock.reverse_integration_constant (fb : SteimFrameBlock)
    (v : Int) : SteimFrameBlock :=
  { fb with steim_frame :=
      match fb.steim_frame with
      | f0 :: rest => f0.set_word (toU32 v) 0 1 :: rest
      | [] => [] }

/-! ## Steim-1 codec (`steim1.rs`) -/

/-- `ok_i8`: fits in a signed byte. -/
def ok_i8 (v : Int) : Bool := -128 ≤ v && v ≤ 127

/-- `ok_i16`: fits in a signed 16-bit integer. -/
def ok_i16 (v : Int) : Bool := -32768 ≤ v && v ≤ 32767

/-- `Steim1Word`: an encoded 4-byte atom holding 4, 3, 2 or 1 sample
differences. -/
inductive Steim1Word where
  | four (a b c d : Int)
  | three (a b c : Int)
  | two (a b : Int)
  | one (a : Int)
deriving DecidableEq, Repr

/-- The 32-bit word image of a `Steim1Word`, as assembled big-endian in
`Steim1Word::add_to_frame` (a `Three` is padded with a trailing zero
byte). -/
def Steim1Word.wordVal : Steim1Word → Nat
  | .four a b c d => ((toU8 a * 256 + toU8 b) * 256 + toU8 c) * 256 + toU8 d
  | .three a b c => ((toU8 a * 256 + toU8 b) * 256 + toU8 c) * 256
  | .two a b => toU16 a * 2 ^ 16 + toU16 b
  | .one a => toU32 a

/-- The two-bit nibble tag of a `Steim1Word` (`Four`/`Three` → 1,
`Two` → 2, `One` → 3). -/
def Steim1Word.nibble : Steim1Word → Nat
  | .four _ _ _ _ => 1
  | .three _ _ _ => 1
  | .two _ _ => 2
  | .one _ => 3

/-- `Steim1Word::add_to_frame`: store the word with its tag at `frame_idx`
and return the frame and the advanced index. -/
def Steim1Word.add_to_frame (w : Steim1Word) (f : SteimFrame)
    (frame_idx : Nat) : SteimFrame × Nat :=
  (f.set_word w.wordVal w.nibble frame_idx, frame_idx + 1)

/-- `Steim1Word::num_samples`. -/
def Steim1Word.num_samples : Steim1Word → Nat
  | .four _ _ _ _ => 4
  | .three _ _ _ => 3
  | .two _ _ => 2
  | .one _ => 1

/-- The difference stream of `encode`: `scan` with state 0, so the first
element is `samples[0]` and each later element is the first difference
(with `i32` wrap-around semantics). -/
def steimDiffs : Int → List Int → List Int
  | _, [] => []
  | st, x :: r => wrap32 (x - st) :: steimDiffs x r

/-- The `ByFours` chunking iterator after its initial single-value item: a
lookahead window of up to four pending differences chooses `Four` (all four
fit in i8), `Three` (exactly three remain, all fitting in i8), `Two` (more
than two pending and the first two fit in i16), else `One`. -/
def byFours : List Int → List Steim1Word
  | [] => []
  | a :: b :: c :: d :: rest =>
    if ok_i8 a && ok_i8 b && ok_i8 c && ok_i8 d then
      .four a b c d :: byFours rest
    else if ok_i16 a && ok_i16 b then
      .two a b :: byFours (c :: d :: rest)
    else
      .one a :: byFours (b :: c :: d :: rest)
  | [a, b, c] =>
    if ok_i8 a && ok_i8 b && ok_i8 c then [.three a b c]
    else if ok_i16 a && ok_i16 b then .two a b :: byFours [c]
    else .one a :: byFours [b, c]
  | [a, b] => .one a :: byFours [b]
  | [a] => [.one a]

/-- The chunk stream of `encode`: the first item is always the single
first difference (= `samples[0]`), the rest come from the four-at-a-time
window. -/
def steim1Chunks (samples : List Int) : List Steim1Word :=
  match steimDiffs 0 samples with
  | [] => []
  | d :: r => Steim1Word.one d :: byFours r

/-- The frame-filling loop of `encode`.  The source's labelled outer loop
never starts a second frame: when `frame_idx` reaches 15 the frame is
pushed and the outer loop is exited both when the block length equals
`frames` (which at that moment is `0 = frames` for "unlimited") and through
the inner `break` followed by the unconditional trailing `break`.  The
result is the single frame and the number of samples consumed. -/
def steim1Fill (frames : Nat) :
    SteimFrame → Nat → Nat → Bool → List Steim1Word →
    Except RErr (SteimFrame × Nat)
  | frame, _, num, _, [] => .ok (frame, num)
  | frame, frame_idx, num, first_sample, chunk :: rest =>
    if first_sample then
      match chunk with
      | .one v =>
        let f := frame.set_word (toU32 v) 0 0
        let idx := frame_idx + 2
        let n := num + 1
        if idx = 15 then .ok (f, n)
        else steim1Fill frames f idx n false rest
      | _ => .error (.panicked "first sample must be one 4-byte value")
    else
      let (f, idx) := chunk.add_to_frame frame frame_idx
      let n := num + chunk.num_samples
      if idx = 15 then .ok (f, n)
      else steim1Fill frames f idx n false rest

/-- `steim1::encode`.  Rejects an empty sample array; otherwise fills (at
most) one frame from the chunk stream, pushes it, sets `num_samples`, and
patches the reverse integration constant `samples[num_samples - 1]` into
word 1 of frame 0. -/
def steim1Encode (samples : List Int) (frames : Nat) :
    Except RErr SteimFrameBlock :=
  if samples.length = 0 then
    .error (RErr.err (.compression "samples array is zero size"))
  else
    match steim1Fill frames SteimFrame.new 0 0 true (steim1Chunks samples) with
    | .error e => .error e
    | .ok (frame, num_samples) =>
      let fb : SteimFrameBlock :=
        { steim_version := 1, num_samples := num_samples,
          steim_frame := [frame] }
      .ok (fb.reverse_integration_constant (samples.getD (num_samples - 1) 0))

/-- Checked byte index, modelling the panicking `bytes[k]`. -/
def byteAt (bytes : List Nat) (k : Nat) : Except RErr Nat :=
  match bytes[k]? with
  | some b => .ok b
  | none => .error (.panicked "index out of bounds")

/-- Checked subslice `&bytes[a..b]`, panicking when out of range. -/
def sliceE (bytes : List Nat) (a b : Nat) : Except RErr (List Nat) :=
  if a ≤ b ∧ b ≤ bytes.length then .ok ((bytes.drop a).take (b - a))
  else .error (.panicked "slice index out of range")

/-- The tag lookup of `extract_samples`:
`curr_nibble = (nibbles >> (32 - i * 2)) & 0x03` for word number `i`
(1-based). -/
def extractTag (nibbles i : Nat) : Nat := (nibbles >>> (32 - i * 2)) &&& 3

/-- One data word of `extract_samples` (word number `i`, 1-based): read the
two-bit tag from bit positions `32 - 2*i` of the nibble word and decode the
word accordingly.  The tag-1 branch reproduces the source's index
expression `offset_idx + (i * 4) + n` — that is `offset + 8*i + n`, not the
word's own bytes at `offset + 4*i + n`. -/
def extractWord (bytes : List Nat) (off : Nat) (nibbles : Nat) (i : Nat) :
    Except RErr (List Int) :=
  let curr_nibble := extractTag nibbles i
  let offset_idx := off + 4 * i
  if curr_nibble = 0 then
    if off = 0 ∧ (i = 1 ∨ i = 2) then do
      let v ← sliceE bytes offset_idx (offset_idx + 4)
      pure [i32OfU32 (readBE v)]
    else pure []
  else if curr_nibble = 1 then do
    let b0 ← byteAt bytes (offset_idx + i * 4 + 0)
    let b1 ← byteAt bytes (offset_idx + i * 4 + 1)
    let b2 ← byteAt bytes (offset_idx + i * 4 + 2)
    let b3 ← byteAt bytes (offset_idx + i * 4 + 3)
    pure [i8OfByte b0, i8OfByte b1, i8OfByte b2, i8OfByte b3]
  else if curr_nibble = 2 then do
    let v0 ← sliceE bytes offset_idx (offset_idx + 2)
    let v1 ← sliceE bytes (offset_idx + 2) (offset_idx + 4)
    pure [i16OfU16 (readBE v0), i16OfU16 (readBE v1)]
  else do
    let v ← sliceE bytes offset_idx (offset_idx + 4)
    pure [i32OfU32 (readBE v)]

/-- `steim1::extract_samples`: the nibble word at `off`, then words 1..15 in
order. -/
def extract_samples (bytes : List Nat) (off : Nat) :
    Except RErr (List Int) := do
  let nb ← sliceE bytes off (off + 4)
  let nibbles := readBE nb
  (List.range 15).foldlM
    (fun acc k => do
      let t ← extractWord bytes off nibbles (k + 1)
      pure (acc ++ t))
    []

/-- Running integration of decoded differences (`last_value = last_value +
s; samples.push(last_value)`), returning the appended samples and the final
running value. -/
def integrateAcc (last : Int) : List Int → List Int × Int
  | [] => ([], last)
  | s :: rest =>
    let v := wrap32 (last + s)
    let (tail, fin) := integrateAcc v rest
    (v :: tail, fin)

/-- Decoder loop state: accumulated samples, the stored X(0) (`start`), the
stored X(N-1) (`endv`), and the running value. -/
structure DecodeState where
  samples : List Int
  startv : Int
  endv : Int
  lastv : Int
deriving DecidableEq, Repr

/-- One frame of the decode loop of `decode_with_bias`.  Frame 0 consumes
the two integration constants from the extracted list (panicking `unwrap`
when fewer than two entries come back); later frames integrate every
entry. -/
def decodeFrameStep (b : List Nat) (st : DecodeState) (i : Nat) :
    Except RErr DecodeState := do
  let temp ← extract_samples b (i * 64)
  if i = 0 then
    match temp with
    | x0 :: xn :: rest =>
      let (tail, lastv) := integrateAcc x0 rest
      pure ⟨x0 :: tail, x0, xn, lastv⟩
    | _ => throw (RErr.panicked "unwrap of None")
  else
    let (tail, lastv) := integrateAcc st.lastv temp
    pure ⟨st.samples ++ tail, st.startv, st.endv, lastv⟩

/-- All frames of the decode loop. -/
def decodeFrames (b : List Nat) (num_frames : Nat) : Except RErr DecodeState :=
  (List.range num_frames).foldlM (decodeFrameStep b) ⟨[], 0, 0, 0⟩

/-- The count-mismatch `Compression` message of `decode_with_bias`
(apostrophe spelled out). -/
def decodeCountMsg (decomp header : Nat) : String :=
  "Number of samples decompressed does not match number in header: decomp: "
    ++ toString decomp ++ " != " ++ toString header ++ ", header"

/-- `steim1::decode_with_bias`.  A length that is not a multiple of 64 is a
`Compression` error; a decoded-count mismatch is a `Compression` error; the
first/last integration-constant checks are `assert_eq!` and the first-sample
lookup is `samples[0]`, all of which panic rather than return an error. -/
def decode_with_bias (b : List Nat) (num_samples : Nat) :
    Except RErr (List Int) :=
  if b.length % 64 ≠ 0 then
    .error (RErr.err (.compression
      ("encoded data length is not multiple of 64 bytes ("
        ++ toString b.length ++ ")")))
  else
    match decodeFrames b (b.length / 64) with
    | .error e => .error e
    | .ok st =>
      if st.samples.length ≠ num_samples then
        .error (RErr.err (.compression
          (decodeCountMsg st.samples.length num_samples)))
      else
        match st.samples with
        | [] => .error (RErr.panicked "index out of bounds")
        | s0 :: rest =>
          if s0 ≠ st.startv then
            .error (RErr.panicked "assertion failed: samples first")
          else if (s0 :: rest).getLastD 0 ≠ st.endv then
            .error (RErr.panicked "assertion failed: samples last")
          else .ok st.samples

/-- `steim1::decode`, the zero-bias entry point. -/
def steim1Decode (b : List Nat) (num_samples : Nat) : Except RErr (List Int) :=
  decode_with_bias b num_samples

/-! ## Validity predicates for records

`ValidHeader`/`ValidRecord` capture what being a well-formed in-memory
record means: the Rust integer field types (`u8`/`u16`/`u32`, the 64-bit
float pattern), a canonical encoding tag (`from_int (value e) = e`), a
record indicator of `MS` and format version 3 (anything else can never be
re-read), an identifier that fits the `u8` length field, extra headers that
are a JSON object text (so a blob of length ≤ 2 can only be `{}` or empty),
and a payload whose serialized length agrees with its `byte_len` and with
the `expected_data_length` consistency check of `from_reader`. -/

/-- Field-type and canonicity constraints on a header about to be
serialized. -/
def ValidHeader (h : MSeed3Header) : Prop :=
  h.record_indicator = [77, 83] ∧ h.format_version = 3 ∧ h.flags < 256 ∧
  h.nanosecond < 2 ^ 32 ∧ h.year < 2 ^ 16 ∧ h.day_of_year < 2 ^ 16 ∧
  h.hour < 256 ∧ h.minute < 256 ∧ h.second < 256 ∧
  DataEncoding.from_int h.encoding.value = h.encoding ∧ h.encoding.value < 256 ∧
  h.sample_rate_period < 2 ^ 64 ∧ h.num_samples < 2 ^ 32 ∧
  h.publication_version < 256

/-- A valid `UnparsedMSeed3Record` (see the section comment). -/
def ValidRecord (r : UnparsedMSeed3Record) : Prop :=
  ValidHeader r.header ∧
  utf8Valid r.identifier.as_bytes = true ∧
  r.identifier.as_bytes.length < 256 ∧
  utf8Valid r.extra_headers = true ∧
  r.extra_headers.length < 2 ^ 16 ∧
  (r.extra_headers.length ≤ 2 → r.extra_headers = [123, 125] ∨ r.extra_headers = []) ∧
  r.encoded_data.write_to.length = r.encoded_data.byte_len ∧
  expected_data_length r.header.encoding
    (r.encoded_data.reconcile_num_samples r.header.num_samples)
    r.encoded_data.byte_len = r.encoded_data.byte_len

/-- A valid `MSeed3Record` (same constraints; the serialized extras of a
serde map are `{}` exactly when the map is empty, never one or two other
bytes). -/
def ValidMSRecord (r : MSeed3Record) : Prop :=
  ValidHeader r.header ∧
  utf8Valid r.identifier.as_bytes = true ∧
  r.identifier.as_bytes.length < 256 ∧
  utf8Valid r.extra_headers_ser = true ∧
  r.extra_headers_ser.length < 2 ^ 16 ∧
  (r.extra_headers_ser.length ≤ 2 → r.extra_headers_ser = [123, 125]) ∧
  r.encoded_data.write_to.length = r.encoded_data.byte_len ∧
  expected_data_length r.header.encoding
    (r.encoded_data.reconcile_num_samples r.header.num_samples)
    r.encoded_data.byte_len = r.encoded_data.byte_len

/-- Modelled from the spec (§4.3): the FDSN identifier grammar.  A string
matches when it is the `FDSN:` prefix followed by six underscore-separated
fields with the stated character classes and length bounds. -/
def FdsnGrammar (s : List Nat) : Prop :=
  ∃ net sta loc band src sub : List Nat,
    s = fdsnPrefixBytes ++ net ++ 95 :: sta ++ 95 :: loc ++ 95 :: band
      ++ 95 :: src ++ 95 :: sub ∧
    1 ≤ net.length ∧ net.length ≤ 8 ∧ net.all isUpperDigit = true ∧
    1 ≤ sta.length ∧ sta.length ≤ 8 ∧ sta.all isUpperDigitDash = true ∧
    loc.length ≤ 8 ∧ loc.all isUpperDigitDash = true ∧
    band.all isUpperDigit = true ∧
    1 ≤ src.length ∧ src.all isUpperDigit = true ∧
    sub.all isUpperDigit = true

/-! ## Concrete example records

`cexHeader`/`cexRec` reproduce the record of the `record_round_trip` test of
`record.rs` (identifier `XFDSN:XX_TEST__L_H_Z`, six Int32 samples, empty
extra headers), except that the stored `crc` field is set to 2736495084 =
0xA31B99EC, the record's correct at-rest CRC32C (the checksum of its
serialization with the CRC field zeroed). -/

def cexIdBytes : List Nat :=
  [88, 70, 68, 83, 78, 58, 88, 88, 95, 84, 69, 83, 84, 95, 95, 76, 95, 72, 95, 90]

def cexHeader : MSeed3Header :=
  { record_indicator := [77, 83], format_version := 3, flags := 4,
    nanosecond := 0, year := 2012, day_of_year := 1, hour := 0, minute := 0,
    second := 0, encoding := .int32,
    sample_rate_period := 0x3FF0000000000000,
    num_samples := 6, crc := 2736495084, publication_version := 1,
    identifier_length := 20, extra_headers_length := 0, data_length := 24 }

/-- The example parsed-extras record with its correct at-rest CRC. -/
def cexRec : MSeed3Record :=
  { header := cexHeader, identifier := SourceIdentifier.ofStr cexIdBytes,
    extra_headers_ser := [123, 125],
    encoded_data := .int32 [0, -1, 2, -3, 4, -5] }

/-- A minimal all-defaults header used to instantiate witnesses. -/
def hdr0 : MSeed3Header :=
  { record_indicator := [77, 83], format_version := 3, flags := 0,
    nanosecond := 0, year := 2000, day_of_year := 0, hour := 0, minute := 0,
    second := 0, encoding := .int32, sample_rate_period := 0,
    num_samples := 0, crc := 0, publication_version := 0,
    identifier_length := 0, extra_headers_length := 0, data_length := 0 }

/-- A 40-byte stream whose header declares Int16 encoding, 3 samples and
`data_length` 5 (which contradicts the expected 2 × 3 = 6): used to witness
the `DataLength` failure of `from_reader`. -/
def c7Stream : List Nat :=
  [77, 83, 3, 0, 0, 0, 0, 0, 0, 0, 0, 0, 0, 0, 0, 1,
   0, 0, 0, 0, 0, 0, 0, 0, 3, 0, 0, 0, 0, 0, 0, 0,
   0, 0, 0, 0, 5, 0, 0, 0]

/-- The header that `c7Stream` parses to. -/
def c7Header : MSeed3Header :=
  { record_indicator := [77, 83], format_version := 3, flags := 0,
    nanosecond := 0, year := 0, day_of_year := 0, hour := 0, minute := 0,
    second := 0, encoding := .int16, sample_rate_period := 0,
    num_samples := 3, crc := 0, publication_version := 0,
    identifier_length := 0, extra_headers_length := 0, data_length := 5 }

/-- The one-frame Steim block bytes of `encode([1,2,3,4,5], 0)`: nibble word
0x04000000 (tag 1 for word 3), X(0)=1, X(N-1)=5, one four-difference word
`01 01 01 01`, twelve null words. -/
def steim1CexBytes : List Nat :=
  [4, 0, 0, 0, 0, 0, 0, 1, 0, 0, 0, 5, 1, 1, 1, 1] ++ List.replicate 48 0

/-- Discriminator: does a result carry a `Compression` error? -/
def isCompressionErr {α : Type} : Except RErr α → Bool
  | .error (.err (.compression _)) => true
  | _ => false

/-- Discriminator: does a result carry a `CrcInvalid` error? -/
def isCrcInvalidErr {α : Type} : Except RErr α → Bool
  | .error (.err (.crcInvalid _ _)) => true
  | _ => false

/-- Overwrite the four header fields that are read from the stream but
recomputed on write: `identifier_length`, `extra_headers_length`,
`data_length` and `crc`. -/
def MSeed3Header.setRawLengthsAndCrc (h : MSeed3Header)
    (il el dl c : Nat) : MSeed3Header :=
  { h with identifier_length := il, extra_headers_length := el,
           data_length := dl, crc := c }

/-- The `mod_header` local of `UnparsedMSeed3Record::write_to_wocrc`: the
stored header with `crc` zeroed and the four recomputed fields
(`identifier_length`, `extra_headers_length`, `data_length`,
`num_samples`) recalculated from the record content. -/
def UnparsedMSeed3Record.mod_header (r : UnparsedMSeed3Record) : MSeed3Header :=
  ({ r.header with crc := 0 }).recalculated_lengths
    (r.identifier.as_bytes.length % 256)
    (if r.extra_headers.length > 2 then r.extra_headers.length % 2 ^ 16 else 0)
    r.encoded_data.byte_len
    (r.encoded_data.reconcile_num_samples r.header.num_samples)

/-- The record that reading back a written record produces: the
recalculated header carrying the freshly computed CRC, the identifier
re-parsed from its byte image, the extra headers normalized to `\x7b\x7d`
when fewer than three bytes were serialized, and the payload as its raw
byte image. -/
def UnparsedMSeed3Record.roundTripImage (r : UnparsedMSeed3Record) :
    UnparsedMSeed3Record :=
  { header := { r.mod_header with crc := crc32c r.write_to_wocrc },
    identifier := SourceIdentifier.ofStr r.identifier.as_bytes,
    extra_headers :=
      if 2 < r.extra_headers.length then r.extra_headers else [123, 125],
    encoded_data := .raw r.encoded_data.write_to }

/-- The `UnparsedMSeed3Record` carrying the same field content as an
`MSeed3Record` (whose extras are already serialized). -/
def MSeed3Record.toUnparsed (r : MSeed3Record) : UnparsedMSeed3Record :=
  { header := r.header, identifier := r.identifier,
    extra_headers := r.extra_headers_ser, encoded_data := r.encoded_data }

/-- A small valid record (identifier `X`, empty JSON extras, no samples)
used to instantiate the write/read round-trip statements. -/
def rtW : UnparsedMSeed3Record :=
  { header := hdr0, identifier := .raw [88], extra_headers := [123, 125],
    encoded_data := .int32 [] }

/-- The `MSeed3Record` counterpart of `rtW`. -/
def msW : MSeed3Record :=
  { header := hdr0, identifier := .raw [88], extra_headers_ser := [123, 125],
    encoded_data := .int32 [] }

/-- The 40-byte header section of `cexRec.write_to`: its CRC window (offset
28) holds the little-endian bytes of the miscomputed CRC `1297739691`. -/
def cexPatchedHeader : List Nat :=
  [77, 83, 3, 4, 0, 0, 0, 0, 220, 7, 1, 0, 0, 0, 0, 3, 0, 0, 0, 0, 0, 0,
   240, 63, 6, 0, 0, 0, 171, 239, 89, 77, 1, 20, 0, 0, 24, 0, 0, 0]

/-- The serialized payload of `cexRec` (six little-endian i32 samples). -/
def cexDataBytes : List Nat :=
  [0, 0, 0, 0, 255, 255, 255, 255, 2, 0, 0, 0, 253, 255, 255, 255,
   4, 0, 0, 0, 251, 255, 255, 255]

/-! # Theorems -/

/-! ## Arithmetic and byte-level lemmas -/

theorem readLE_le2 (x : Nat) (hx : x < 2 ^ 16) : readLE (le2 x) = x := by
  simp [readLE, le2]
  omega

theorem readLE_le4 (x : Nat) (hx : x < 2 ^ 32) : readLE (le4 x) = x := by
  simp [readLE, le4]
  omega

theorem readLE_le8 (x : Nat) (hx : x < 2 ^ 64) : readLE (le8 x) = x := by
  simp [readLE, le8, le4]
  omega

theorem crcUpdate_append (c : Nat) (a b : List Nat) :
    crcUpdate c (a ++ b) = crcUpdate (crcUpdate c a) b := by
  simp [crcUpdate, List.foldl_append]

theorem crcBitStep_lt (c : Nat) (hc : c < 2 ^ 32) : crcBitStep c < 2 ^ 32 := by
  unfold crcBitStep CRC32C_POLY
  split
  · exact Nat.xor_lt_two_pow (by omega) (by norm_num)
  · omega

theorem crcByteStep_lt (c b : Nat) (hc : c < 2 ^ 32) :
    crcByteStep c b < 2 ^ 32 := by
  unfold crcByteStep
  have h0 : c ^^^ b % 256 < 2 ^ 32 :=
    Nat.xor_lt_two_pow hc (by have := Nat.mod_lt b (y := 256) (by omega); omega)
  exact crcBitStep_lt _ (crcBitStep_lt _ (crcBitStep_lt _ (crcBitStep_lt _
    (crcBitStep_lt _ (crcBitStep_lt _ (crcBitStep_lt _ (crcBitStep_lt _ h0)))))))

theorem crcUpdate_lt (c : Nat) (bs : List Nat) (hc : c < 2 ^ 32) :
    crcUpdate c bs < 2 ^ 32 := by
  induction bs generalizing c with
  | nil => exact hc
  | cons b rest ih => exact ih _ (crcByteStep_lt _ _ hc)

theorem crc32c_lt (bs : List Nat) : crc32c bs < 2 ^ 32 :=
  Nat.xor_lt_two_pow (crcUpdate_lt _ _ (by norm_num)) (by norm_num)

/-! ## C9: leap-second handling of `set_start_from_utc` -/

/-- C9: for every source instant (with the chrono invariants `second ≤ 59`
and `nanosecond < 2·10⁹`), `set_start_from_utc` stores a nanosecond field
strictly below 10⁹, and a leap-second instant (chrono nanosecond ≥ 10⁹)
stores `second = second + 1`; in particular a leap second at second 59 is
stored as 60. -/
theorem set_start_from_utc_leap (h : MSeed3Header)
    (year ordinal hour minute sec ns : Nat)
    (hsec : sec ≤ 59) (hns : ns < 2000000000) :
    (h.set_start_from_utc year ordinal hour minute sec ns).nanosecond
        < 1000000000 ∧
    (1000000000 ≤ ns →
      (h.set_start_from_utc year ordinal hour minute sec ns).second = sec + 1) ∧
    (sec = 59 → 1000000000 ≤ ns →
      (h.set_start_from_utc year ordinal hour minute sec ns).second = 60) := by
  refine ⟨?_, ?_, ?_⟩ <;> simp [MSeed3Header.set_start_from_utc] <;> omega

/-- Witness for C9 at the leap second 2016-12-31T23:59:59 with chrono
nanosecond 1.9·10⁹ (the test vector of `header.rs`). -/
theorem set_start_from_utc_leap_witness :
    (hdr0.set_start_from_utc 2016 366 23 59 59 1900000000).nanosecond
        < 1000000000 ∧
    (1000000000 ≤ 1900000000 →
      (hdr0.set_start_from_utc 2016 366 23 59 59 1900000000).second = 59 + 1) ∧
    (59 = 59 → 1000000000 ≤ 1900000000 →
      (hdr0.set_start_from_utc 2016 366 23 59 59 1900000000).second = 60) :=
  set_start_from_utc_leap hdr0 2016 366 23 59 59 1900000000
    (by norm_num) (by norm_num)

/-! ## C10: the write path ignores the stored length and CRC fields -/

/-- C10: two `UnparsedMSeed3Record`s identical except in the header's
stored `identifier_length`, `extra_headers_length`, `data_length` and `crc`
fields produce byte-for-byte identical `write_to` output and the same
`(bytes_written, crc)` pair. -/
theorem write_to_ignores_stale_lengths (r : UnparsedMSeed3Record)
    (il el dl c il' el' dl' c' : Nat) :
    ({ r with header := r.header.setRawLengthsAndCrc il el dl c }
      : UnparsedMSeed3Record).write_to =
    ({ r with header := r.header.setRawLengthsAndCrc il' el' dl' c' }
      : UnparsedMSeed3Record).write_to := rfl

/-! ## C6: fixed-header parse errors and field offsets -/

/-- C6 (amended): `InsufficientBytes` exactly when fewer than 40 bytes are
available; for a buffer of exactly 40 bytes, `BadRecordIndicator` exactly
when the first two bytes are not `M`,`S`, `UnknownFormatVersion` exactly
when byte 2 is not 3, and otherwise a successful parse reading every field
little-endian at the documented offsets.  A slice longer than 40 bytes is
not parsed: the source's `try_into().unwrap()` panics. -/
theorem header_tryFromSlice_characterization :
    (∀ b : List Nat, b.length < 40 →
      MSeed3Header.tryFromSlice b =
        .error (.err (.insufficientBytes b.length 40))) ∧
    (∀ b : List Nat, 40 < b.length →
      MSeed3Header.tryFromSlice b =
        .error (.panicked "try_into to 40-byte array failed: unwrap")) ∧
    (∀ b : List Nat, b.length = 40 →
      (¬ (b.getD 0 0 = 77 ∧ b.getD 1 0 = 83) →
        MSeed3Header.tryFromSlice b =
          .error (.err (.badRecordIndicator (b.getD 0 0) (b.getD 1 0)))) ∧
      (b.getD 0 0 = 77 → b.getD 1 0 = 83 → b.getD 2 0 ≠ 3 →
        MSeed3Header.tryFromSlice b =
          .error (.err (.unknownFormatVersion (b.getD 2 0)))) ∧
      (b.getD 0 0 = 77 → b.getD 1 0 = 83 → b.getD 2 0 = 3 →
        MSeed3Header.tryFromSlice b = .ok
          { record_indicator := [77, 83], format_version := 3,
            flags := b.getD 3 0,
            nanosecond := readLE ((b.drop 4).take 4),
            year := readLE ((b.drop 8).take 2),
            day_of_year := readLE ((b.drop 10).take 2),
            hour := b.getD 12 0, minute := b.getD 13 0, second := b.getD 14 0,
            encoding := DataEncoding.from_int (b.getD 15 0),
            sample_rate_period := readLE ((b.drop 16).take 8),
            num_samples := readLE ((b.drop 24).take 4),
            crc := readLE ((b.drop 28).take 4),
            publication_version := b.getD 32 0,
            identifier_length := b.getD 33 0,
            extra_headers_length := readLE ((b.drop 34).take 2),
            data_length := readLE ((b.drop 36).take 4) })) := by
  refine ⟨?_, ?_, ?_⟩
  · intro b hb
    simp [MSeed3Header.tryFromSlice, FIXED_HEADER_SIZE, hb]
  · intro b hb
    rw [MSeed3Header.tryFromSlice, if_neg (by simp [FIXED_HEADER_SIZE]; omega),
      if_neg (by simp [FIXED_HEADER_SIZE]; omega)]
  · intro b hb
    have hslice : MSeed3Header.tryFromSlice b = MSeed3Header.tryFromArray b := by
      rw [MSeed3Header.tryFromSlice, if_neg (by simp [FIXED_HEADER_SIZE]; omega),
        if_pos (by simp [FIXED_HEADER_SIZE, hb])]
    refine ⟨?_, ?_, ?_⟩
    · intro hms
      rw [hslice, MSeed3Header.tryFromArray, if_pos (by tauto)]
    · intro h0 h1 h2
      rw [hslice, MSeed3Header.tryFromArray,
        if_neg (by push_neg; exact ⟨h0, h1⟩), if_pos h2]
    · intro h0 h1 h2
      have h2' : b[2]?.getD 0 = 3 := by
        simpa [List.getD_eq_getElem?_getD] using h2
      rw [hslice, MSeed3Header.tryFromArray,
        if_neg (by push_neg; exact ⟨h0, h1⟩),
        if_neg (not_not_intro h2)]
      simp only [read_le_u32, read_le_u16, read_le_f64, List.drop_drop]
      norm_num [h2', MSeed3Header.REC_IND]

/-- C6 counterexample: a 41-byte buffer (at least 40 bytes available, first
two bytes not `M`,`S`) does not fail with `BadRecordIndicator` as the claim
requires — the conversion to a 40-byte array panics instead. -/
theorem header_tryFromSlice_41_counterexample :
    MSeed3Header.tryFromSlice (List.replicate 41 0) =
      .error (.panicked "try_into to 40-byte array failed: unwrap") ∧
    MSeed3Header.tryFromSlice (List.replicate 41 0) ≠
      .error (.err (.badRecordIndicator 0 0)) := by
  refine ⟨rfl, ?_⟩
  intro h
  simp [MSeed3Header.tryFromSlice, FIXED_HEADER_SIZE] at h

/-- Witness for C6 at concrete buffers: a 39-byte buffer gives
`InsufficientBytes 39 40`, and the 40-byte `c7Stream` parses to
`c7Header`. -/
theorem header_tryFromSlice_witness :
    MSeed3Header.tryFromSlice (List.replicate 39 0) =
      .error (.err (.insufficientBytes 39 40)) ∧
    MSeed3Header.tryFromSlice c7Stream = .ok c7Header := by
  constructor
  · have h := header_tryFromSlice_characterization.1 (List.replicate 39 0)
      (by norm_num)
    simpa using h
  · have h := ((header_tryFromSlice_characterization.2.2 c7Stream
      (by decide)).2.2) (by decide) (by decide) (by decide)
    rw [h]
    rfl

/-! ## C7: the data-length consistency check of `from_reader` -/

/-- C7: whenever the header has parsed from the stream and the identifier
and extra-header bytes it designates are valid UTF-8, `from_reader` fails
with `DataLength(expected, nsamples, encoding, actual)` exactly when the
header's `data_length` differs from the expected data length; and (absent
`u32` overflow) the expected value is 2 × num_samples for Int16,
4 × num_samples for Int32 and Float32, 8 × num_samples for Float64, and the
header's own `data_length` for every other encoding. -/
theorem from_reader_data_length (s : List Nat) (h : MSeed3Header)
    (hh : MSeed3Header.tryFromArray (readHeaderBuffer s) = .ok h)
    (hid : utf8Valid ((s.drop 40).take h.identifier_length) = true)
    (heh : 2 < h.extra_headers_length →
      utf8Valid (((s.drop 40).drop h.identifier_length).take
        h.extra_headers_length) = true) :
    ((∃ e n enc a, UnparsedMSeed3Record.from_reader s =
        .error (.err (.dataLength e n enc a))) ↔
      h.data_length ≠
        expected_data_length h.encoding h.num_samples h.data_length) ∧
    (h.data_length ≠
        expected_data_length h.encoding h.num_samples h.data_length →
      UnparsedMSeed3Record.from_reader s = .error (RErr.err (.dataLength
        (expected_data_length h.encoding h.num_samples h.data_length)
        h.num_samples h.encoding.value h.data_length))) ∧
    (8 * h.num_samples < 2 ^ 32 →
      expected_data_length h.encoding h.num_samples h.data_length =
        (match h.encoding with
         | .int16 => 2 * h.num_samples
         | .int32 => 4 * h.num_samples
         | .float32 => 4 * h.num_samples
         | .float64 => 8 * h.num_samples
         | _ => h.data_length)) := by
  have hA : h.data_length ≠
      expected_data_length h.encoding h.num_samples h.data_length →
      UnparsedMSeed3Record.from_reader s = .error (RErr.err (.dataLength
        (expected_data_length h.encoding h.num_samples h.data_length)
        h.num_samples h.encoding.value h.data_length)) := by
    intro hne
    by_cases h2 : 2 < h.extra_headers_length
    · simp only [UnparsedMSeed3Record.from_reader, hh,
        SourceIdentifier.tryFromVec, hid, if_true]
      rw [if_pos h2, if_pos (heh h2), if_pos hne]
    · simp only [UnparsedMSeed3Record.from_reader, hh,
        SourceIdentifier.tryFromVec, hid, if_true]
      rw [if_neg h2, if_pos hne]
  have hB : h.data_length =
      expected_data_length h.encoding h.num_samples h.data_length →
      ∀ e n enc a, UnparsedMSeed3Record.from_reader s ≠
        .error (RErr.err (.dataLength e n enc a)) := by
    intro heq e n enc a
    have hcond : ¬ (h.data_length ≠
        expected_data_length h.encoding h.num_samples h.data_length) :=
      not_not_intro heq
    by_cases h2 : 2 < h.extra_headers_length
    · simp only [UnparsedMSeed3Record.from_reader, hh,
        SourceIdentifier.tryFromVec, hid, if_true]
      rw [if_pos h2, if_pos (heh h2), if_neg hcond]
      split <;> simp
    · simp only [UnparsedMSeed3Record.from_reader, hh,
        SourceIdentifier.tryFromVec, hid, if_true]
      rw [if_neg h2, if_neg hcond]
      split <;> simp
  refine ⟨⟨?_, fun hne => ⟨_, _, _, _, hA hne⟩⟩, hA, ?_⟩
  · rintro ⟨e, n, enc, a, hfr⟩
    by_contra hcond
    exact hB hcond e n enc a hfr
  · intro hlt
    cases henc : h.encoding <;>
      simp [expected_data_length, henc] <;> omega

/-- Witness for C7: `c7Stream` declares Int16 encoding with 3 samples but
`data_length` 5, so `from_reader` fails with `DataLength(6, 3, 1, 5)`. -/
theorem from_reader_data_length_witness :
    UnparsedMSeed3Record.from_reader c7Stream =
      .error (RErr.err (.dataLength 6 3 1 5)) := by
  have h := (from_reader_data_length c7Stream c7Header rfl rfl
    (fun hlt => absurd hlt (by decide))).2.1 (by decide)
  simpa [c7Header, expected_data_length, DataEncoding.value] using h

/-! ## C3: Steim-1 encode/decode round trip -/

/-- C3: evaluation of the codec at the claim's inputs.  Encoding the empty
array fails with `Compression("samples array is zero size")` and the first
data word of frame 0 holds S[0] with the reverse integration word holding
the last encoded sample — but the round trip itself FAILS: for
S = [1,2,3,4,5] (whose encoding fits comfortably in one frame) the decoder
reads the four 1-byte differences of word 3 from bytes 24..28 instead of
bytes 12..16 (the `offset_idx + (i*4) + n` index bug of `extract_samples`),
reconstructs [1,1,1,1,1], and panics at the reverse-integration
`assert_eq!` instead of returning S.  Moreover the encoder's outer loop
never starts a second frame: 54 samples with frames = 0 (unlimited) encode
to a single frame holding only 53 samples. -/
theorem steim1_round_trip_eval :
    steim1Encode ([] : List Int) 0 =
      .error (RErr.err (.compression "samples array is zero size")) ∧
    (steim1Encode [1, 2, 3, 4, 5] 0).map
        (fun fb => (fb.num_samples, fb.steim_frame.map SteimFrame.nibbles,
          fb.steim_frame.map SteimFrame.words)) =
      .ok (5, [0x04000000],
        [[1, 5, 0x01010101, 0, 0, 0, 0, 0, 0, 0, 0, 0, 0, 0, 0]]) ∧
    (steim1Encode [1, 2, 3, 4, 5] 0).map SteimFrameBlock.get_encoded_data =
      .ok steim1CexBytes ∧
    steim1Decode steim1CexBytes 5 =
      .error (RErr.panicked "assertion failed: samples last") ∧
    (steim1Encode (List.replicate 54 0) 0).map SteimFrameBlock.num_samples =
      .ok 53 :=
  ⟨rfl, rfl, rfl, rfl, rfl⟩

/-! ## C4: Steim-1 decode error handling -/

/-- C4 counterexample: `decode(&[], 0)` — a byte slice whose length is not a
positive multiple of 64 — does not return a `Compression` error as the
claim requires: the length check accepts 0 (`0 % 64 == 0`), no samples are
decoded, and `samples[0]` panics with an index out of bounds. -/
theorem decode_empty_counterexample :
    decode_with_bias [] 0 = .error (RErr.panicked "index out of bounds") ∧
    isCompressionErr (decode_with_bias [] 0) = false :=
  ⟨rfl, rfl⟩

/-- C4 (amended): `decode_with_bias` returns a `Compression` error whenever
the input length is not a multiple of 64 (zero length passes the check),
and whenever the frames decode without panicking but the decoded sample
count differs from the declared one.  The stored-constant checks (and the
empty-input, zero-count case) panic instead of returning `Compression`. -/
theorem decode_with_bias_compression_errors :
    (∀ (b : List Nat) (N : Nat), b.length % 64 ≠ 0 →
      decode_with_bias b N = .error (RErr.err (.compression
        ("encoded data length is not multiple of 64 bytes ("
          ++ toString b.length ++ ")")))) ∧
    (∀ (b : List Nat) (N : Nat) (st : DecodeState), b.length % 64 = 0 →
      decodeFrames b (b.length / 64) = .ok st →
      st.samples.length ≠ N →
      decode_with_bias b N = .error (RErr.err (.compression
        (decodeCountMsg st.samples.length N)))) := by
  constructor
  · intro b N hb
    simp only [decode_with_bias]
    rw [if_pos hb]
  · intro b N st hb hst hcount
    simp only [decode_with_bias]
    rw [if_neg (not_not_intro hb), hst]
    simp only [if_pos hcount]

/-- Witness for C4 at concrete inputs: a 1-byte slice fails the length
check with `Compression`, and a single all-zero frame decoding to one
sample fails with the count-mismatch `Compression` when 2 samples are
declared. -/
theorem decode_with_bias_compression_witness :
    decode_with_bias [0] 0 = .error (RErr.err (.compression
      "encoded data length is not multiple of 64 bytes (1)")) ∧
    decode_with_bias (List.replicate 64 0) 2 =
      .error (RErr.err (.compression (decodeCountMsg 1 2))) := by
  constructor
  · exact decode_with_bias_compression_errors.1 [0] 0 (by decide)
  · have h := decode_with_bias_compression_errors.2 (List.replicate 64 0) 2
      ⟨[0], 0, 0, 0⟩ (by decide) rfl (by decide)
    simpa using h

/-! ## C5: placement of the two-bit tags in the nibble word -/

/-- C5 counterexample: in the frame encoded from [5, 5], data word w(3)
carries a one-4-byte-difference atom (tag 3) that decode consumes
successfully, yet the claim's position for c(3) — bits 31−2·3 = 25 down to
24 — holds 0; the tag actually sits two bits higher, at bits 27..26
(the nibble word is 0x0C000000, not 0x03000000). -/
theorem steim1_nibble_position_counterexample :
    (steim1Encode [5, 5] 0).map (fun fb => fb.steim_frame.map SteimFrame.nibbles) =
      .ok [0x0C000000] ∧
    (0x0C000000 >>> 24) &&& 3 = 0 ∧
    (0x0C000000 >>> 26) &&& 3 = 3 ∧
    (steim1Encode [5, 5] 0).map
        (fun fb => steim1Decode fb.get_encoded_data 2) = .ok (.ok [5, 5]) :=
  ⟨rfl, rfl, rfl, rfl⟩

/-- C5 (amended): `set_word` places the two-bit tag of data word w(idx+1)
at bit positions 31−2·idx down to 30−2·idx (equivalently 33−2·i..32−2·i for
the 1-based word number i), which is exactly where `extract_samples` reads
it back (`extractTag`); writing into a clear tag field recovers the tag,
leaves every other word's tag unchanged, and never touches the two least
significant bits — there is no tag slot covering the nibble word itself. -/
theorem set_word_extractTag (f : SteimFrame) (w tag idx : Nat)
    (hidx : idx < 15) (htag : tag < 4)
    (hclear : extractTag f.nibbles (idx + 1) = 0) :
    extractTag (f.set_word w tag idx).nibbles (idx + 1) = tag ∧
    (∀ j, j < 15 → j ≠ idx →
      extractTag (f.set_word w tag idx).nibbles (j + 1) =
        extractTag f.nibbles (j + 1)) ∧
    (f.set_word w tag idx).nibbles % 4 = f.nibbles % 4 := by
  have hconv : ∀ n k : Nat, extractTag n (k + 1) = n / 2 ^ (30 - 2 * k) % 4 := by
    intro n k
    have h3 := Nat.and_pow_two_sub_one_eq_mod (n >>> (32 - (k + 1) * 2)) 2
    norm_num at h3
    have he : 32 - (k + 1) * 2 = 30 - 2 * k := by omega
    rw [extractTag, h3, Nat.shiftRight_eq_div_pow, he]
  have hset : (f.set_word w tag idx).nibbles =
      f.nibbles + tag * 2 ^ (30 - 2 * idx) := by
    rw [SteimFrame.set_word, Nat.shiftLeft_eq]
  have hm : f.nibbles / 2 ^ (30 - 2 * idx) % 4 = 0 := by
    rw [hconv] at hclear
    exact hclear
  refine ⟨?_, ?_, ?_⟩
  · rw [hconv, hset, Nat.add_mul_div_right _ _ (Nat.two_pow_pos _)]
    omega
  · intro j hj hne
    rcases Nat.lt_or_ge idx j with hij | hij
    · -- idx < j : the written field sits strictly above the read field
      have hps : (2:Nat) ^ (30 - 2 * idx) =
          2 ^ (30 - 2 * idx - (30 - 2 * j)) * 2 ^ (30 - 2 * j) := by
        rw [← pow_add]
        congr 1
        omega
      rw [hconv, hconv, hset]
      have h1 : f.nibbles + tag * 2 ^ (30 - 2 * idx) =
          f.nibbles + tag * 2 ^ (30 - 2 * idx - (30 - 2 * j)) * 2 ^ (30 - 2 * j) := by
        rw [hps]
        ring
      rw [h1, Nat.add_mul_div_right _ _ (Nat.two_pow_pos _)]
      obtain ⟨t, ht⟩ : 4 ∣ tag * 2 ^ (30 - 2 * idx - (30 - 2 * j)) := by
        have h4 : (4:Nat) ∣ 2 ^ (30 - 2 * idx - (30 - 2 * j)) := by
          have hp := pow_dvd_pow 2 (show 2 ≤ 30 - 2 * idx - (30 - 2 * j) by omega)
          simpa using hp
        exact h4.mul_left tag
      omega
    · -- j < idx : the written field sits strictly below the read field, and
      -- by `hclear` the addition cannot carry across it
      have hjlt : j < idx := by omega
      obtain ⟨A, hA⟩ : 4 ∣ f.nibbles / 2 ^ (30 - 2 * idx) :=
        Nat.dvd_of_mod_eq_zero hm
      have hr : f.nibbles % 2 ^ (30 - 2 * idx) < 2 ^ (30 - 2 * idx) :=
        Nat.mod_lt _ (Nat.two_pow_pos _)
      have hn : f.nibbles = 2 ^ (30 - 2 * idx + 2) * A
          + f.nibbles % 2 ^ (30 - 2 * idx) := by
        have hdm := Nat.div_add_mod f.nibbles (2 ^ (30 - 2 * idx))
        calc f.nibbles
            = 2 ^ (30 - 2 * idx) * (f.nibbles / 2 ^ (30 - 2 * idx))
              + f.nibbles % 2 ^ (30 - 2 * idx) := hdm.symm
          _ = 2 ^ (30 - 2 * idx) * (4 * A)
              + f.nibbles % 2 ^ (30 - 2 * idx) := by rw [hA]
          _ = 2 ^ (30 - 2 * idx + 2) * A
              + f.nibbles % 2 ^ (30 - 2 * idx) := by rw [pow_add]; ring
      have key : ∀ s, s < 2 ^ (30 - 2 * idx + 2) →
          (2 ^ (30 - 2 * idx + 2) * A + s) / 2 ^ (30 - 2 * j) =
            A / 2 ^ (30 - 2 * j - (30 - 2 * idx + 2)) := by
        intro s hs
        have hqsplit : (2:Nat) ^ (30 - 2 * j) =
            2 ^ (30 - 2 * idx + 2) * 2 ^ (30 - 2 * j - (30 - 2 * idx + 2)) := by
          rw [← pow_add]
          congr 1
          omega
        rw [hqsplit, ← Nat.div_div_eq_div_mul,
          Nat.mul_add_div (Nat.two_pow_pos _), Nat.div_eq_of_lt hs,
          Nat.add_zero]
      have h22 : (2:Nat) ^ (30 - 2 * idx + 2) = 4 * 2 ^ (30 - 2 * idx) := by
        rw [pow_add]
        ring
      have hs : f.nibbles % 2 ^ (30 - 2 * idx) + tag * 2 ^ (30 - 2 * idx)
          < 2 ^ (30 - 2 * idx + 2) := by
        have hmul : tag * 2 ^ (30 - 2 * idx) ≤ 3 * 2 ^ (30 - 2 * idx) :=
          Nat.mul_le_mul_right _ (by omega)
        omega
      have h1 : f.nibbles + tag * 2 ^ (30 - 2 * idx) =
          2 ^ (30 - 2 * idx + 2) * A
            + (f.nibbles % 2 ^ (30 - 2 * idx) + tag * 2 ^ (30 - 2 * idx)) := by
        conv_lhs => rw [hn]
        ring
      rw [hconv, hconv, hset, h1, key _ hs]
      conv_rhs => rw [hn, key _ (lt_of_lt_of_le hr (by omega))]
  · rw [hset]
    obtain ⟨t, ht⟩ : 4 ∣ tag * 2 ^ (30 - 2 * idx) := by
      have h4 : (4:Nat) ∣ 2 ^ (30 - 2 * idx) := by
        have hp := pow_dvd_pow 2 (show 2 ≤ 30 - 2 * idx by omega)
        simpa using hp
      exact h4.mul_left tag
    omega

/-- Witness for C5: writing tag 3 at word index 2 of a fresh frame is read
back as the tag of word number 3, leaves word number 6's tag unchanged, and
leaves the two low bits clear. -/
theorem set_word_extractTag_witness :
    extractTag (SteimFrame.new.set_word 7 3 2).nibbles 3 = 3 ∧
    extractTag (SteimFrame.new.set_word 7 3 2).nibbles 6 =
      extractTag SteimFrame.new.nibbles 6 ∧
    (SteimFrame.new.set_word 7 3 2).nibbles % 4 =
      SteimFrame.new.nibbles % 4 := by
  have h := set_word_extractTag SteimFrame.new 7 3 2 (by norm_num)
    (by norm_num) (by decide)
  exact ⟨h.1, h.2.1 5 (by norm_num) (by norm_num), h.2.2⟩

/-! ## C8: the FDSN source-identifier grammar -/

theorem splitUnderscore_ne_nil (l : List Nat) : splitUnderscore l ≠ [] := by
  induction l with
  | nil => simp [splitUnderscore]
  | cons b rest ih =>
    rw [splitUnderscore]
    split
    · simp
    · cases hs : splitUnderscore rest with
      | nil => exact absurd hs ih
      | cons h t => simp [hs]


theorem joinUnderscore_splitUnderscore (l : List Nat) :
    joinUnderscore (splitUnderscore l) = l := by
  induction l with
  | nil => rfl
  | cons b rest ih =>
    rw [splitUnderscore]
    split
    · rename_i hb
      subst hb
      cases hs : splitUnderscore rest with
      | nil => exact absurd hs (splitUnderscore_ne_nil rest)
      | cons h t =>
        rw [hs] at ih
        rw [joinUnderscore]
        simpa using ih
    · cases hs : splitUnderscore rest with
      | nil => exact absurd hs (splitUnderscore_ne_nil rest)
      | cons h t =>
        rw [hs] at ih
        cases t with
        | nil => simpa [joinUnderscore] using ih
        | cons t0 ts =>
          rw [joinUnderscore] at ih ⊢
          simpa using ih

theorem splitUnderscore_sep_free (a : List Nat) (ha : 95 ∉ a) :
    splitUnderscore a = [a] := by
  induction a with
  | nil => rfl
  | cons b rest ih =>
    have hb : b ≠ 95 := by
      intro hb
      exact ha (hb ▸ List.mem_cons_self b rest)
    have hrest : 95 ∉ rest := fun hm => ha (List.mem_cons_of_mem b hm)
    rw [splitUnderscore, if_neg hb, ih hrest]

theorem splitUnderscore_append (a r : List Nat) (ha : 95 ∉ a) :
    splitUnderscore (a ++ 95 :: r) = a :: splitUnderscore r := by
  induction a with
  | nil => simp [splitUnderscore]
  | cons b rest ih =>
    have hb : b ≠ 95 := by
      intro hb
      exact ha (hb ▸ List.mem_cons_self b rest)
    have hrest : 95 ∉ rest := fun hm => ha (List.mem_cons_of_mem b hm)
    rw [List.cons_append, splitUnderscore, if_neg hb, ih hrest]

theorem no_sep_of_isUpperDigit (p : List Nat) (hp : p.all isUpperDigit = true) :
    95 ∉ p := by
  intro hm
  have := List.all_eq_true.mp hp 95 hm
  simp [isUpperDigit] at this

theorem no_sep_of_isUpperDigitDash (p : List Nat)
    (hp : p.all isUpperDigitDash = true) : 95 ∉ p := by
  intro hm
  have := List.all_eq_true.mp hp 95 hm
  simp [isUpperDigitDash, isUpperDigit] at this

/-- Forward direction: a successful FDSN parse gives the grammar
decomposition, and the `Display` image reproduces the input exactly. -/
theorem parse_ok_grammar (s : List Nat) (f : FdsnSourceIdentifier)
    (h : FdsnSourceIdentifier.parse s = .ok f) :
    FdsnGrammar s ∧ f.toBytes = s := by
  rw [FdsnSourceIdentifier.parse] at h
  by_cases hp : fdsnPrefixBytes.isPrefixOf s
  · rw [if_pos hp] at h
    obtain ⟨t, ht⟩ := List.isPrefixOf_iff_prefix.mp hp
    have hdrop : s.drop 5 = t := by
      rw [← ht, List.drop_left' (by rfl)]
    split at h
    · rename_i net sta loc band src sub hsp
      split at h
      · rename_i hcond
        injection h with hf
        subst hf
        simp only [Bool.and_eq_true, decide_eq_true_eq] at hcond
        obtain ⟨⟨⟨⟨⟨⟨⟨⟨⟨h1, h2⟩, h3⟩, ⟨h4, h5⟩⟩, h6⟩, h7⟩, h8⟩, h9⟩,
          ⟨h10, h11⟩⟩, h12⟩ := hcond
        have hs : s = fdsnPrefixBytes ++ net ++ 95 :: sta ++ 95 :: loc
            ++ 95 :: band ++ 95 :: src ++ 95 :: sub := by
          rw [← ht]
          have hteq : t = joinUnderscore [net, sta, loc, band, src, sub] := by
            rw [← hdrop, ← hsp, joinUnderscore_splitUnderscore]
          rw [hteq]
          simp [joinUnderscore]
        refine ⟨⟨net, sta, loc, band, src, sub, hs, h1, h2, h3, h4, h5, h6,
          h7, h8, h9, h10, h11, h12⟩, ?_⟩
        rw [FdsnSourceIdentifier.toBytes, hs]
      · exact absurd h (by simp)
    · exact absurd h (by simp)
  · rw [if_neg hp] at h
    exact absurd h (by simp)

/-- Backward direction: a grammar decomposition makes the FDSN parse
succeed. -/
theorem grammar_parse_ok (s : List Nat) (hg : FdsnGrammar s) :
    ∃ f, FdsnSourceIdentifier.parse s = .ok f := by
  obtain ⟨net, sta, loc, band, src, sub, hs, h1, h2, h3, h4, h5, h6, h7, h8,
    h9, h10, h11, h12⟩ := hg
  have hnet := no_sep_of_isUpperDigit net h3
  have hsta := no_sep_of_isUpperDigitDash sta h6
  have hloc := no_sep_of_isUpperDigitDash loc h8
  have hband := no_sep_of_isUpperDigit band h9
  have hsrc := no_sep_of_isUpperDigit src h11
  have hsub := no_sep_of_isUpperDigit sub h12
  have hpre : fdsnPrefixBytes.isPrefixOf s = true := by
    rw [hs]
    exact List.isPrefixOf_iff_prefix.mpr
      ⟨net ++ 95 :: sta ++ 95 :: loc ++ 95 :: band ++ 95 :: src ++ 95 :: sub,
        by simp⟩
  have hdrop : s.drop 5 =
      net ++ 95 :: sta ++ 95 :: loc ++ 95 :: band ++ 95 :: src ++ 95 :: sub := by
    rw [hs]
    have hassoc : fdsnPrefixBytes ++ net ++ 95 :: sta ++ 95 :: loc
        ++ 95 :: band ++ 95 :: src ++ 95 :: sub =
        fdsnPrefixBytes ++ (net ++ 95 :: sta ++ 95 :: loc ++ 95 :: band
          ++ 95 :: src ++ 95 :: sub) := by simp
    rw [hassoc, List.drop_left' (by rfl)]
  have hsp : splitUnderscore (s.drop 5) = [net, sta, loc, band, src, sub] := by
    rw [hdrop]
    simp only [List.append_assoc, List.cons_append]
    rw [splitUnderscore_append _ _ hnet, splitUnderscore_append _ _ hsta,
      splitUnderscore_append _ _ hloc, splitUnderscore_append _ _ hband,
      splitUnderscore_append _ _ hsrc, splitUnderscore_sep_free _ hsub]
  refine ⟨⟨net, sta, loc, band, src, sub⟩, ?_⟩
  rw [FdsnSourceIdentifier.parse, if_pos hpre]
  simp only [hsp]
  simp [h1, h2, h3, h4, h5, h6, h7, h8, h9, h10, h11, h12]

/-- Shared helper: the byte image of `From<&str>` is always the input
string, whichever variant results. -/
theorem ofStr_as_bytes (s : List Nat) :
    (SourceIdentifier.ofStr s).as_bytes = s := by
  rw [SourceIdentifier.ofStr]
  cases hp : FdsnSourceIdentifier.parse s with
  | error e => rfl
  | ok f => exact (parse_ok_grammar s f hp).2

/-- C8: converting a string to a `SourceIdentifier` yields `Fdsn` exactly
when the string matches the FDSN grammar, yields `Raw(s)` otherwise (never
failing for well-formed UTF-8), and formatting an `Fdsn` result back
reproduces the input exactly. -/
theorem sourceIdentifier_grammar (s : List Nat) :
    ((∃ f, SourceIdentifier.ofStr s = .fdsn f) ↔ FdsnGrammar s) ∧
    (∀ f, SourceIdentifier.ofStr s = .fdsn f → f.toBytes = s) ∧
    (¬ FdsnGrammar s → SourceIdentifier.ofStr s = .raw s) := by
  refine ⟨⟨?_, ?_⟩, ?_, ?_⟩
  · rintro ⟨f, hf⟩
    rw [SourceIdentifier.ofStr] at hf
    cases hp : FdsnSourceIdentifier.parse s with
    | error e => rw [hp] at hf; exact absurd hf (by simp)
    | ok g => exact (parse_ok_grammar s g hp).1
  · intro hg
    obtain ⟨f, hf⟩ := grammar_parse_ok s hg
    exact ⟨f, by rw [SourceIdentifier.ofStr, hf]⟩
  · intro f hf
    rw [SourceIdentifier.ofStr] at hf
    cases hp : FdsnSourceIdentifier.parse s with
    | error e => rw [hp] at hf; exact absurd hf (by simp)
    | ok g =>
      rw [hp] at hf
      have hgf : g = f := by simpa using hf
      exact hgf ▸ (parse_ok_grammar s g hp).2
  · intro hng
    rw [SourceIdentifier.ofStr]
    cases hp : FdsnSourceIdentifier.parse s with
    | error e => rfl
    | ok g => exact absurd (parse_ok_grammar s g hp).1 hng

/-- Witness for C8 at `FDSN:IU_COLA_00_B_H_Z` (the spec's own example):
parsing yields the Fdsn variant with the six components, and its `Display`
image is exactly the input. -/
theorem sourceIdentifier_grammar_witness :
    FdsnSourceIdentifier.toBytes
        ⟨[73, 85], [67, 79, 76, 65], [48, 48], [66], [72], [90]⟩ =
      [70, 68, 83, 78, 58, 73, 85, 95, 67, 79, 76, 65, 95, 48, 48, 95, 66,
        95, 72, 95, 90] :=
  (sourceIdentifier_grammar
      [70, 68, 83, 78, 58, 73, 85, 95, 67, 79, 76, 65, 95, 48, 48, 95, 66,
        95, 72, 95, 90]).2.1
    ⟨[73, 85], [67, 79, 76, 65], [48, 48], [66], [72], [90]⟩ rfl

/-! ## C1/C2: record serialization infrastructure -/

theorem header_write_to_length (h : MSeed3Header) : h.write_to.length = 40 := by
  simp [MSeed3Header.write_to, MSeed3Header.REC_IND, le2, le4, le8]

/-- Parsing the serialized image of a valid header (whose length/CRC fields
are in `u8`/`u16`/`u32` range) returns the header itself. -/
theorem tryFromArray_write_to (h : MSeed3Header) (hv : ValidHeader h)
    (hidl : h.identifier_length < 256) (hehl : h.extra_headers_length < 2 ^ 16)
    (hdl : h.data_length < 2 ^ 32) (hcrc : h.crc < 2 ^ 32) :
    MSeed3Header.tryFromArray h.write_to = .ok h := by
  simp only [ValidHeader] at hv
  obtain ⟨ri, fv, fl, nano, yr, doy, hh, mm, ss, enc, srp, nsamp, crc, pv, il, el, dl⟩ := h
  simp only at hv hidl hehl hdl hcrc
  obtain ⟨hri, hfv, hfl, hnano, hyr, hdoy, hhh, hmm, hss, henc, hencv, hsrp,
    hnsamp, hpv⟩ := hv
  subst hri hfv
  simp only [MSeed3Header.write_to, MSeed3Header.REC_IND, le2, le4, le8,
    List.cons_append, List.nil_append, List.append_assoc]
  rw [MSeed3Header.tryFromArray]
  norm_num [read_le_u32, read_le_u16, read_le_f64, readLE]
  refine ⟨by rfl, hfl, by omega, by omega, by omega, hhh, hmm, hss,
    by rw [Nat.mod_eq_of_lt hencv]; exact henc, by omega, by omega, by omega,
    hpv, hidl, by omega, by omega⟩

/-- Patching four bytes at the CRC offset of a serialized header produces
the serialization of the header with that CRC value. -/
theorem header_write_to_patch (h : MSeed3Header) (c : Nat) :
    h.write_to.take CRC_OFFSET ++ le4 c ++ h.write_to.drop (CRC_OFFSET + 4) =
      ({ h with crc := c } : MSeed3Header).write_to := rfl

/-- `from_reader` on a stream laid out as header ‖ identifier ‖ extras ‖
payload: when the parsed header's section lengths match the layout, the
identifier (and, when read, the extras) are valid UTF-8, the data-length
check passes and the stored CRC equals the digest of the zero-window header
and the sections, the read succeeds and returns exactly those sections. -/
theorem from_reader_structured (H idB ehB dataB : List Nat) (h : MSeed3Header)
    (hHlen : H.length = 40)
    (hparse : MSeed3Header.tryFromArray H = .ok h)
    (hidl : h.identifier_length = idB.length)
    (hidu : utf8Valid idB = true)
    (hehl : h.extra_headers_length = ehB.length)
    (hehu : 2 < ehB.length → utf8Valid ehB = true)
    (hdl : h.data_length = dataB.length)
    (hexp : expected_data_length h.encoding h.num_samples h.data_length =
      h.data_length)
    (hcrc : (crcUpdate (crcUpdate (crcUpdate (crcUpdate 0xFFFFFFFF
        (H.take CRC_OFFSET ++ [0, 0, 0, 0] ++ H.drop (CRC_OFFSET + 4)))
        idB) ehB) dataB) ^^^ 0xFFFFFFFF = h.crc) :
    UnparsedMSeed3Record.from_reader (H ++ (idB ++ (ehB ++ dataB))) = .ok
      { header := h, identifier := SourceIdentifier.ofStr idB,
        extra_headers := if 2 < ehB.length then ehB else [123, 125],
        encoded_data := .raw dataB } := by
  have hslen : 40 ≤ (H ++ (idB ++ (ehB ++ dataB))).length := by
    simp [hHlen]
  have hbuf : readHeaderBuffer (H ++ (idB ++ (ehB ++ dataB))) = H := by
    rw [readHeaderBuffer, List.take_left' hHlen,
      Nat.sub_eq_zero_of_le hslen]
    simp
  have heq1 : (H ++ (idB ++ (ehB ++ dataB))).drop 40 = idB ++ (ehB ++ dataB) :=
    List.drop_left' hHlen
  simp only [UnparsedMSeed3Record.from_reader, hbuf, hparse, heq1, hidl,
    hehl, hdl, List.take_left, List.drop_left, List.take_length,
    SourceIdentifier.tryFromVec, hidu, if_true]
  rw [if_neg (not_not_intro (hdl ▸ hexp.symm))]
  by_cases h2 : 2 < ehB.length
  · rw [if_pos h2, if_pos (hehu h2), if_neg (not_not_intro hcrc), if_pos h2]
    simp only [EncodedTimeseries.reconcile_num_samples, ← hidl, ← hehl, ← hdl]
  · rw [if_neg h2, if_neg (not_not_intro (hdl ▸ hexp.symm)),
      if_neg (not_not_intro hcrc), if_neg h2]
    simp only [EncodedTimeseries.reconcile_num_samples, ← hidl, ← hehl, ← hdl]

/-- Like `from_reader_structured`, but when the stored CRC differs from the
digest of the zero-window header and the sections, the read fails with
`CrcInvalid` carrying the computed and the stored value. -/
theorem from_reader_structured_crcfail (H idB ehB dataB : List Nat)
    (h : MSeed3Header)
    (hHlen : H.length = 40)
    (hparse : MSeed3Header.tryFromArray H = .ok h)
    (hidl : h.identifier_length = idB.length)
    (hidu : utf8Valid idB = true)
    (hehl : h.extra_headers_length = ehB.length)
    (hehu : 2 < ehB.length → utf8Valid ehB = true)
    (hdl : h.data_length = dataB.length)
    (hexp : expected_data_length h.encoding h.num_samples h.data_length =
      h.data_length)
    (hcrcne : (crcUpdate (crcUpdate (crcUpdate (crcUpdate 0xFFFFFFFF
        (H.take CRC_OFFSET ++ [0, 0, 0, 0] ++ H.drop (CRC_OFFSET + 4)))
        idB) ehB) dataB) ^^^ 0xFFFFFFFF ≠ h.crc) :
    UnparsedMSeed3Record.from_reader (H ++ (idB ++ (ehB ++ dataB))) =
      .error (RErr.err (MErr.crcInvalid
        ((crcUpdate (crcUpdate (crcUpdate (crcUpdate 0xFFFFFFFF
          (H.take CRC_OFFSET ++ [0, 0, 0, 0] ++ H.drop (CRC_OFFSET + 4)))
          idB) ehB) dataB) ^^^ 0xFFFFFFFF) h.crc)) := by
  have hslen : 40 ≤ (H ++ (idB ++ (ehB ++ dataB))).length := by
    simp [hHlen]
  have hbuf : readHeaderBuffer (H ++ (idB ++ (ehB ++ dataB))) = H := by
    rw [readHeaderBuffer, List.take_left' hHlen,
      Nat.sub_eq_zero_of_le hslen]
    simp
  have heq1 : (H ++ (idB ++ (ehB ++ dataB))).drop 40 = idB ++ (ehB ++ dataB) :=
    List.drop_left' hHlen
  simp only [UnparsedMSeed3Record.from_reader, hbuf, hparse, heq1, hidl,
    hehl, hdl, List.take_left, List.drop_left, List.take_length,
    SourceIdentifier.tryFromVec, hidu, if_true]
  rw [if_neg (not_not_intro (hdl ▸ hexp.symm))]
  by_cases h2 : 2 < ehB.length
  · rw [if_pos h2, if_pos (hehu h2), if_pos hcrcne]
  · rw [if_neg h2, if_neg (not_not_intro (hdl ▸ hexp.symm)), if_pos hcrcne]

theorem byte_len_lt (e : EncodedTimeseries) : e.byte_len < 2 ^ 32 := by
  cases e <;> exact Nat.mod_lt _ (by norm_num)

theorem reconcile_lt (e : EncodedTimeseries) (n : Nat) (hn : n < 2 ^ 32) :
    e.reconcile_num_samples n < 2 ^ 32 := by
  cases e <;> first
    | exact hn
    | exact Nat.mod_lt _ (by norm_num)

/-- `write_to_wocrc` is the serialized recalculated header followed by the
three sections. -/
theorem wocrc_decomp (r : UnparsedMSeed3Record) :
    r.write_to_wocrc = r.mod_header.write_to
      ++ (r.identifier.as_bytes
        ++ ((if 2 < r.extra_headers.length then r.extra_headers else [])
          ++ r.encoded_data.write_to)) := by
  simp only [UnparsedMSeed3Record.write_to_wocrc,
    UnparsedMSeed3Record.mod_header, List.append_assoc, gt_iff_lt]

/-- Patching four bytes at `CRC_OFFSET` inside the 40-byte header prefix of
a longer buffer only touches the prefix. -/
theorem patch_append (A rest : List Nat) (c : Nat) (hA : A.length = 40) :
    (A ++ rest).take CRC_OFFSET ++ le4 c ++ (A ++ rest).drop (CRC_OFFSET + 4)
      = (A.take CRC_OFFSET ++ le4 c ++ A.drop (CRC_OFFSET + 4)) ++ rest := by
  rw [List.take_append_of_le_length (by rw [hA]; decide),
    List.drop_append_of_le_length (by rw [hA]; decide)]
  simp [List.append_assoc]

/-- Patching four bytes at `CRC_OFFSET` into the serialization replaces the
recalculated header's (zero) CRC field. -/
theorem write_patch_decomp (r : UnparsedMSeed3Record) (c : Nat) :
    r.write_to_wocrc.take CRC_OFFSET ++ le4 c
      ++ r.write_to_wocrc.drop (CRC_OFFSET + 4)
      = ({ r.mod_header with crc := c }).write_to
        ++ (r.identifier.as_bytes
          ++ ((if 2 < r.extra_headers.length then r.extra_headers else [])
            ++ r.encoded_data.write_to)) := by
  rw [wocrc_decomp r, patch_append _ _ _ (header_write_to_length _),
    header_write_to_patch]

/-- Reading back the bytes written by `UnparsedMSeed3Record::write_to`
succeeds and yields the round-trip image of the record. -/
theorem unparsed_round_trip_core (r : UnparsedMSeed3Record)
    (hr : ValidRecord r) :
    UnparsedMSeed3Record.from_reader r.write_to.2 = .ok r.roundTripImage := by
  obtain ⟨hvh, hidu, hidlen, hehu, hehlen, -, hdlen, hexp⟩ := hr
  have key := write_patch_decomp r
  have hout : r.write_to.2 =
      ({ r.mod_header with crc := crc32c r.write_to_wocrc }).write_to
        ++ (r.identifier.as_bytes
          ++ ((if 2 < r.extra_headers.length then r.extra_headers else [])
            ++ r.encoded_data.write_to)) := key (crc32c r.write_to_wocrc)
  have hHlen :
      ({ r.mod_header with crc := crc32c r.write_to_wocrc }).write_to.length
        = 40 := header_write_to_length _
  have hvh2 :
      ValidHeader { r.mod_header with crc := crc32c r.write_to_wocrc } := by
    obtain ⟨h1, h2, h3, h4, h5, h6, h7, h8, h9, h10, h11, h12, h13, h14⟩ := hvh
    exact ⟨h1, h2, h3, h4, h5, h6, h7, h8, h9, h10, h11, h12,
      reconcile_lt r.encoded_data r.header.num_samples h13, h14⟩
  have hidl2 :
      ({ r.mod_header with crc := crc32c r.write_to_wocrc
        } : MSeed3Header).identifier_length < 256 := by
    show r.identifier.as_bytes.length % 256 < 256
    exact Nat.mod_lt _ (by norm_num)
  have hehl2 :
      ({ r.mod_header with crc := crc32c r.write_to_wocrc
        } : MSeed3Header).extra_headers_length < 2 ^ 16 := by
    show (if 2 < r.extra_headers.length
        then r.extra_headers.length % 2 ^ 16 else 0) < 2 ^ 16
    split
    · exact Nat.mod_lt _ (by norm_num)
    · norm_num
  have hdl2 :
      ({ r.mod_header with crc := crc32c r.write_to_wocrc
        } : MSeed3Header).data_length < 2 ^ 32 := byte_len_lt r.encoded_data
  have hcrc2 :
      ({ r.mod_header with crc := crc32c r.write_to_wocrc
        } : MSeed3Header).crc < 2 ^ 32 := crc32c_lt _
  have hparse := tryFromArray_write_to
    { r.mod_header with crc := crc32c r.write_to_wocrc }
    hvh2 hidl2 hehl2 hdl2 hcrc2
  have hidl3 :
      ({ r.mod_header with crc := crc32c r.write_to_wocrc
        } : MSeed3Header).identifier_length
        = r.identifier.as_bytes.length := by
    show r.identifier.as_bytes.length % 256 = _
    exact Nat.mod_eq_of_lt hidlen
  have hehl3 :
      ({ r.mod_header with crc := crc32c r.write_to_wocrc
        } : MSeed3Header).extra_headers_length
        = (if 2 < r.extra_headers.length
          then r.extra_headers else []).length := by
    show (if 2 < r.extra_headers.length
        then r.extra_headers.length % 2 ^ 16 else 0) = _
    by_cases h2 : 2 < r.extra_headers.length
    · rw [if_pos h2, if_pos h2, Nat.mod_eq_of_lt hehlen]
    · rw [if_neg h2, if_neg h2]
      rfl
  have hehu3 : 2 < (if 2 < r.extra_headers.length
        then r.extra_headers else []).length →
      utf8Valid (if 2 < r.extra_headers.length
        then r.extra_headers else []) = true := by
    intro hgt
    by_cases h2 : 2 < r.extra_headers.length
    · rw [if_pos h2]
      exact hehu
    · rw [if_neg h2] at hgt
      simp at hgt
  have hdl3 :
      ({ r.mod_header with crc := crc32c r.write_to_wocrc
        } : MSeed3Header).data_length
        = r.encoded_data.write_to.length := by
    show r.encoded_data.byte_len = _
    exact hdlen.symm
  have hexp3 : expected_data_length
      ({ r.mod_header with crc := crc32c r.write_to_wocrc
        } : MSeed3Header).encoding
      ({ r.mod_header with crc := crc32c r.write_to_wocrc
        } : MSeed3Header).num_samples
      ({ r.mod_header with crc := crc32c r.write_to_wocrc
        } : MSeed3Header).data_length
      = ({ r.mod_header with crc := crc32c r.write_to_wocrc
        } : MSeed3Header).data_length := hexp
  have hcrc3 : (crcUpdate (crcUpdate (crcUpdate (crcUpdate 0xFFFFFFFF
      (({ r.mod_header with crc := crc32c r.write_to_wocrc
        } : MSeed3Header).write_to.take CRC_OFFSET ++ [0, 0, 0, 0]
        ++ ({ r.mod_header with crc := crc32c r.write_to_wocrc
          } : MSeed3Header).write_to.drop (CRC_OFFSET + 4)))
      r.identifier.as_bytes)
      (if 2 < r.extra_headers.length then r.extra_headers else []))
      r.encoded_data.write_to) ^^^ 0xFFFFFFFF
      = ({ r.mod_header with crc := crc32c r.write_to_wocrc
        } : MSeed3Header).crc := by
    have h1 : ({ r.mod_header with crc := crc32c r.write_to_wocrc
          } : MSeed3Header).write_to.take CRC_OFFSET ++ [0, 0, 0, 0]
        ++ ({ r.mod_header with crc := crc32c r.write_to_wocrc
          } : MSeed3Header).write_to.drop (CRC_OFFSET + 4)
        = r.mod_header.write_to := header_write_to_patch _ 0
    rw [h1, ← crcUpdate_append, ← crcUpdate_append, ← crcUpdate_append,
      ← wocrc_decomp r]
    rfl
  rw [hout, from_reader_structured
    (({ r.mod_header with crc := crc32c r.write_to_wocrc
      } : MSeed3Header).write_to)
    r.identifier.as_bytes
    (if 2 < r.extra_headers.length then r.extra_headers else [])
    r.encoded_data.write_to
    { r.mod_header with crc := crc32c r.write_to_wocrc }
    hHlen hparse hidl3 hidu hehl3 hehu3 hdl3 hexp3 hcrc3]
  by_cases h2 : 2 < r.extra_headers.length
  · simp only [UnparsedMSeed3Record.roundTripImage, if_pos h2]
  · simp only [UnparsedMSeed3Record.roundTripImage, if_neg h2]
    norm_num

/-- When the stored CRC is zero, `MSeed3Record::write_to_wocrc` agrees with
`UnparsedMSeed3Record::write_to_wocrc` on the corresponding record. -/
theorem ms_wocrc_eq (m : MSeed3Record) (h0 : m.header.crc = 0) :
    m.write_to_wocrc = m.toUnparsed.write_to_wocrc := by
  obtain ⟨hdr, idf, eh, ed⟩ := m
  obtain ⟨ri, fv, fl, na, yr, dy, hh, mi, se, en, sr, ns, crc, pv, il, el,
    dl⟩ := hdr
  change crc = 0 at h0
  subst h0
  rfl

/-- When the stored CRC is zero, `MSeed3Record::write_to` agrees with
`UnparsedMSeed3Record::write_to` on the corresponding record. -/
theorem ms_write_to_eq (m : MSeed3Record) (h0 : m.header.crc = 0) :
    m.write_to = m.toUnparsed.write_to := by
  simp only [MSeed3Record.write_to, UnparsedMSeed3Record.write_to,
    ms_wocrc_eq m h0]

/-! ## C1: write/read round trip -/

/-- C1: for every valid record, reading back the bytes written by
`UnparsedMSeed3Record::write_to` succeeds and yields the record's round-trip
image — the recalculated header with the freshly computed CRC, the same
identifier byte image, the same extra headers (normalized to `\x7b\x7d` when
at most two bytes were stored) and the same payload byte image.  For
`MSeed3Record::write_to` the same holds provided the stored `header.crc` is
zero (the general case fails; see the counterexample). -/
theorem record_round_trip :
    (∀ r : UnparsedMSeed3Record, ValidRecord r →
      UnparsedMSeed3Record.from_reader r.write_to.2 = .ok r.roundTripImage ∧
      r.roundTripImage.identifier.as_bytes = r.identifier.as_bytes ∧
      (2 < r.extra_headers.length →
        r.roundTripImage.extra_headers = r.extra_headers) ∧
      r.roundTripImage.encoded_data.write_to = r.encoded_data.write_to) ∧
    (∀ m : MSeed3Record, ValidMSRecord m → m.header.crc = 0 →
      UnparsedMSeed3Record.from_reader m.write_to.2 =
        .ok m.toUnparsed.roundTripImage) := by
  constructor
  · intro r hr
    refine ⟨unparsed_round_trip_core r hr, ofStr_as_bytes _, ?_, rfl⟩
    intro h2
    show (if 2 < r.extra_headers.length then r.extra_headers else [123, 125])
      = r.extra_headers
    rw [if_pos h2]
  · intro m hm h0
    obtain ⟨hvh, hidu, hidlen, hehu, hehlen, hehsm, hdlen, hexp⟩ := hm
    rw [ms_write_to_eq m h0]
    exact unparsed_round_trip_core m.toUnparsed
      ⟨hvh, hidu, hidlen, hehu, hehlen, fun hle => Or.inl (hehsm hle),
        hdlen, hexp⟩

set_option maxRecDepth 8000 in
/-- The miscomputed CRC of `cexRec`: `MSeed3Record::write_to` digests the
serialization still holding the stored CRC bytes. -/
theorem cex_crc_wocrc : crc32c cexRec.write_to_wocrc = 1297739691 := by
  have h1 : cexRec.write_to_wocrc =
      [77, 83, 3, 4, 0, 0, 0, 0, 220, 7, 1, 0, 0, 0, 0, 3, 0, 0, 0, 0,
       0, 0, 240, 63, 6, 0, 0, 0, 236, 153, 27, 163, 1, 20, 0, 0, 24, 0,
       0, 0, 88, 70, 68]
      ++ [83, 78, 58, 88, 88, 95, 84, 69, 83, 84, 95, 95, 76, 95, 72,
          95, 90, 0, 0, 0, 0, 255, 255, 255, 255, 2, 0, 0, 0, 253, 255,
          255, 255, 4, 0, 0, 0, 251, 255, 255, 255] := by decide
  have h2 : crcUpdate 4294967295
      [77, 83, 3, 4, 0, 0, 0, 0, 220, 7, 1, 0, 0, 0, 0, 3, 0, 0, 0, 0,
       0, 0, 240, 63, 6, 0, 0, 0, 236, 153, 27, 163, 1, 20, 0, 0, 24, 0,
       0, 0, 88, 70, 68] = 1390228163 := by decide
  show crcUpdate 4294967295 cexRec.write_to_wocrc ^^^ 4294967295
    = 1297739691
  rw [h1, crcUpdate_append, h2]
  decide

set_option maxRecDepth 8000 in
/-- The bytes put on the wire by `cexRec.write_to`, split into header,
identifier, (absent) extras and payload sections. -/
theorem cex_write_bytes : cexRec.write_to.2 = cexPatchedHeader
    ++ (cexIdBytes ++ (([] : List Nat) ++ cexDataBytes)) := by
  show cexRec.write_to_wocrc.take CRC_OFFSET
      ++ le4 (crc32c cexRec.write_to_wocrc)
      ++ cexRec.write_to_wocrc.drop (CRC_OFFSET + 4) = _
  rw [cex_crc_wocrc]
  decide

set_option maxRecDepth 8000 in
/-- C1 counterexample: `cexRec` is a valid `MSeed3Record` carrying its
correct at-rest CRC, yet reading back the bytes of
`MSeed3Record::write_to` fails with `CrcInvalid`: the CRC was computed over
a buffer still holding the stored (non-zero) CRC bytes, because the zeroed
header clone made by `write_to` is never used. -/
theorem record_round_trip_counterexample :
    ValidMSRecord cexRec ∧
    isCrcInvalidErr (UnparsedMSeed3Record.from_reader cexRec.write_to.2)
      = true := by
  constructor
  · unfold ValidMSRecord ValidHeader
    decide
  · have d0 : crcUpdate 4294967295 (cexPatchedHeader.take CRC_OFFSET
        ++ [0, 0, 0, 0] ++ cexPatchedHeader.drop (CRC_OFFSET + 4))
        = 1787207655 := by decide
    have d1 : crcUpdate 1787207655 cexIdBytes = 2548431990 := by decide
    have hne : (crcUpdate (crcUpdate (crcUpdate (crcUpdate 4294967295
        (cexPatchedHeader.take CRC_OFFSET ++ [0, 0, 0, 0]
          ++ cexPatchedHeader.drop (CRC_OFFSET + 4)))
        cexIdBytes) ([] : List Nat)) cexDataBytes) ^^^ 4294967295
        ≠ ({ cexHeader with crc := 1297739691 } : MSeed3Header).crc := by
      rw [d0, d1]
      decide
    rw [cex_write_bytes, from_reader_structured_crcfail cexPatchedHeader
      cexIdBytes [] cexDataBytes { cexHeader with crc := 1297739691 }
      (by decide) rfl (by decide) (by decide) rfl (fun hx => rfl) rfl
      (by decide) hne]
    rfl

set_option maxRecDepth 8000 in
/-- C1 witness: concrete valid records on which the round trip of both
write paths succeeds. -/
theorem record_round_trip_witness :
    ValidRecord rtW ∧ ValidMSRecord msW ∧ msW.header.crc = 0 ∧
    UnparsedMSeed3Record.from_reader rtW.write_to.2 = .ok rtW.roundTripImage ∧
    UnparsedMSeed3Record.from_reader msW.write_to.2 =
      .ok msW.toUnparsed.roundTripImage := by
  have hv : ValidRecord rtW := by
    unfold ValidRecord ValidHeader
    decide
  have hv2 : ValidMSRecord msW := by
    unfold ValidMSRecord ValidHeader
    decide
  exact ⟨hv, hv2, rfl, (record_round_trip.1 rtW hv).1,
    record_round_trip.2 msW hv2 rfl⟩

/-! ## C2: write_to length and CRC contract -/

/-- C2: `UnparsedMSeed3Record::write_to` returns `(n, crc)` where `n` is
40 + identifier bytes + extra-header bytes (0 when at most two bytes are
serialized) + payload bytes and equals the number of bytes written, the
four bytes at offset 28 of the output are `crc` little-endian, and `crc` is
the CRC32C of the output with those four bytes taken as zero (the digest is
fed the serialization, whose CRC window this writer zeroes).  The
`MSeed3Record` writer satisfies the same contract only when the stored
`header.crc` is zero: it then writes the same bytes as the unparsed writer
(the general case fails; see the counterexample). -/
theorem write_to_contract (r : UnparsedMSeed3Record)
    (hsz : 40 + r.identifier.as_bytes.length
      + (if 2 < r.extra_headers.length then r.extra_headers.length else 0)
      + r.encoded_data.write_to.length < 2 ^ 32) :
    (r.write_to.1.1 = 40 + r.identifier.as_bytes.length
      + (if 2 < r.extra_headers.length then r.extra_headers.length else 0)
      + r.encoded_data.write_to.length ∧
    r.write_to.2.length = r.write_to.1.1 ∧
    (r.write_to.2.drop CRC_OFFSET).take 4 = le4 r.write_to.1.2 ∧
    r.write_to.1.2 = crc32c (r.write_to.2.take CRC_OFFSET ++ [0, 0, 0, 0]
      ++ r.write_to.2.drop (CRC_OFFSET + 4))) ∧
    (∀ m : MSeed3Record, m.header.crc = 0 →
      m.write_to = m.toUnparsed.write_to) := by
  have hehW : (if 2 < r.extra_headers.length then r.extra_headers
      else ([] : List Nat)).length
      = (if 2 < r.extra_headers.length then r.extra_headers.length else 0) := by
    split <;> rfl
  have hlenW : r.write_to_wocrc.length = 40 + r.identifier.as_bytes.length
      + (if 2 < r.extra_headers.length then r.extra_headers.length else 0)
      + r.encoded_data.write_to.length := by
    rw [wocrc_decomp r]
    simp only [List.length_append, header_write_to_length, hehW]
    omega
  have hWlt : r.write_to_wocrc.length < 2 ^ 32 := by
    rw [hlenW]
    exact hsz
  have hW40 : 40 ≤ r.write_to_wocrc.length := by
    rw [hlenW]
    omega
  have htk : (r.write_to_wocrc.take 28).length = 28 := by
    rw [List.length_take]
    omega
  have hle4 : (le4 (crc32c r.write_to_wocrc)).length = 4 := rfl
  have h32 : (r.write_to_wocrc.take 28
      ++ le4 (crc32c r.write_to_wocrc)).length = 32 := by
    rw [List.length_append, htk, hle4]
  have hzw : r.write_to_wocrc.take CRC_OFFSET ++ [0, 0, 0, 0]
      ++ r.write_to_wocrc.drop (CRC_OFFSET + 4) = r.write_to_wocrc := by
    rw [show ([0, 0, 0, 0] : List Nat) = le4 0 from rfl, wocrc_decomp r,
      patch_append _ _ _ (header_write_to_length _), header_write_to_patch]
    rfl
  refine ⟨⟨?_, ?_, ?_, ?_⟩, fun m h0 => ms_write_to_eq m h0⟩
  · show r.write_to_wocrc.length % 2 ^ 32 = _
    rw [hlenW]
    exact Nat.mod_eq_of_lt hsz
  · show (r.write_to_wocrc.take 28 ++ le4 (crc32c r.write_to_wocrc)
      ++ r.write_to_wocrc.drop 32).length = r.write_to_wocrc.length % 2 ^ 32
    rw [List.length_append, List.length_append, htk, hle4,
      List.length_drop, Nat.mod_eq_of_lt hWlt]
    omega
  · show ((r.write_to_wocrc.take 28 ++ le4 (crc32c r.write_to_wocrc)
      ++ r.write_to_wocrc.drop 32).drop 28).take 4
      = le4 (crc32c r.write_to_wocrc)
    rw [List.append_assoc, List.drop_left' htk, List.take_left' hle4]
  · show crc32c r.write_to_wocrc
      = crc32c ((r.write_to_wocrc.take 28 ++ le4 (crc32c r.write_to_wocrc)
          ++ r.write_to_wocrc.drop 32).take 28 ++ [0, 0, 0, 0]
        ++ (r.write_to_wocrc.take 28 ++ le4 (crc32c r.write_to_wocrc)
          ++ r.write_to_wocrc.drop 32).drop 32)
    have ht28 : (r.write_to_wocrc.take 28 ++ le4 (crc32c r.write_to_wocrc)
        ++ r.write_to_wocrc.drop 32).take 28 = r.write_to_wocrc.take 28 := by
      rw [List.append_assoc]
      exact List.take_left' htk
    have hd32 : (r.write_to_wocrc.take 28 ++ le4 (crc32c r.write_to_wocrc)
        ++ r.write_to_wocrc.drop 32).drop 32 = r.write_to_wocrc.drop 32 :=
      List.drop_left' h32
    rw [ht28, hd32]
    exact congrArg crc32c hzw.symm

set_option maxRecDepth 8000 in
/-- C2 counterexample: for `cexRec` (whose stored CRC is its correct
at-rest value, not zero), `MSeed3Record::write_to` returns CRC
`1297739691`, but the CRC32C of the written output with its CRC window
taken as zero is `2736495084`: the returned CRC is not the checksum of the
written record image. -/
theorem write_to_crc_counterexample :
    cexRec.write_to.1.2 = 1297739691 ∧
    crc32c (cexRec.write_to.2.take CRC_OFFSET ++ [0, 0, 0, 0]
      ++ cexRec.write_to.2.drop (CRC_OFFSET + 4)) = 2736495084 ∧
    cexRec.write_to.1.2 ≠ crc32c (cexRec.write_to.2.take CRC_OFFSET
      ++ [0, 0, 0, 0] ++ cexRec.write_to.2.drop (CRC_OFFSET + 4)) := by
  have hzwl : cexRec.write_to.2.take CRC_OFFSET ++ [0, 0, 0, 0]
      ++ cexRec.write_to.2.drop (CRC_OFFSET + 4)
      = [77, 83, 3, 4, 0, 0, 0, 0, 220, 7, 1, 0, 0, 0, 0, 3, 0, 0, 0, 0,
         0, 0, 240, 63, 6, 0, 0, 0, 0, 0, 0, 0, 1, 20, 0, 0, 24, 0, 0, 0,
         88, 70, 68]
        ++ [83, 78, 58, 88, 88, 95, 84, 69, 83, 84, 95, 95, 76, 95, 72,
            95, 90, 0, 0, 0, 0, 255, 255, 255, 255, 2, 0, 0, 0, 253, 255,
            255, 255, 4, 0, 0, 0, 251, 255, 255, 255] := by
    rw [cex_write_bytes]
    decide
  have hz1 : crcUpdate 4294967295
      [77, 83, 3, 4, 0, 0, 0, 0, 220, 7, 1, 0, 0, 0, 0, 3, 0, 0, 0, 0,
       0, 0, 240, 63, 6, 0, 0, 0, 0, 0, 0, 0, 1, 20, 0, 0, 24, 0, 0, 0,
       88, 70, 68] = 3245435803 := by decide
  have hz : crc32c
      ([77, 83, 3, 4, 0, 0, 0, 0, 220, 7, 1, 0, 0, 0, 0, 3, 0, 0, 0, 0,
        0, 0, 240, 63, 6, 0, 0, 0, 0, 0, 0, 0, 1, 20, 0, 0, 24, 0, 0, 0,
        88, 70, 68]
        ++ [83, 78, 58, 88, 88, 95, 84, 69, 83, 84, 95, 95, 76, 95, 72,
            95, 90, 0, 0, 0, 0, 255, 255, 255, 255, 2, 0, 0, 0, 253, 255,
            255, 255, 4, 0, 0, 0, 251, 255, 255, 255]) = 2736495084 := by
    show crcUpdate 4294967295 _ ^^^ 4294967295 = 2736495084
    rw [crcUpdate_append, hz1]
    decide
  refine ⟨cex_crc_wocrc, ?_, ?_⟩
  · rw [hzwl]
    exact hz
  · show crc32c cexRec.write_to_wocrc ≠ _
    rw [cex_crc_wocrc, hzwl, hz]
    decide

set_option maxRecDepth 8000 in
/-- C2 witness: the contract evaluated on the concrete record `rtW`. -/
theorem write_to_contract_witness :
    (40 + rtW.identifier.as_bytes.length
      + (if 2 < rtW.extra_headers.length then rtW.extra_headers.length else 0)
      + rtW.encoded_data.write_to.length < 2 ^ 32) ∧
    ((rtW.write_to.1.1 = 40 + rtW.identifier.as_bytes.length
      + (if 2 < rtW.extra_headers.length then rtW.extra_headers.length else 0)
      + rtW.encoded_data.write_to.length ∧
    rtW.write_to.2.length = rtW.write_to.1.1 ∧
    (rtW.write_to.2.drop CRC_OFFSET).take 4 = le4 rtW.write_to.1.2 ∧
    rtW.write_to.1.2 = crc32c (rtW.write_to.2.take CRC_OFFSET ++ [0, 0, 0, 0]
      ++ rtW.write_to.2.drop (CRC_OFFSET + 4))) ∧
    (∀ m : MSeed3Record, m.header.crc = 0 →
      m.write_to = m.toUnparsed.write_to)) :=
  ⟨by decide, write_to_contract rtW (by decide)⟩
